import Mathlib

/-!
# SFML-Snake: the grid simulation of `src/main.cpp`

A shallow embedding of the classes `Snake` and `Grid` and of the loop of `main`,
followed by theorems about them.

Conventions of the embedding
* A C++ `int` is a mathematical integer in `[-2^31, 2^31)`. Every `int` operation
  of the source whose result can leave that range (`+=` and `-` on coordinates,
  `width_ * height_`, the conversion of `body_.size() + 1` to `int`) is followed
  by `wrap32`, the two's complement value that the compiled program computes.
* `std::deque<sf::Vector2i>` is a `List`, front first.
* The random draw of `RandomGen::generate` is an explicit argument `num`.
* A computation that does not produce a value in C++ (an exception thrown by
  `std::vector::reserve`, an index outside the vector) is `none`.
* Text written to `std::cout` is returned next to the state.
-/

namespace SnakeGame

/-! ## Data model -/

/-- Integer grid coordinate, `sf::Vector2i`. -/
structure Vector2i where
  x : Int
  y : Int
deriving DecidableEq, Repr

/-- The value of a 32-bit `int` computation whose mathematical result is `n`:
the representative of `n` modulo `2^32` in `[-2^31, 2^31)`. -/
def wrap32 (n : Int) : Int :=
  (n + 2147483648) % 4294967296 - 2147483648

/-- Componentwise sum in `int`, `operator+=` of `sf::Vector2i`. -/
def Vector2i.add (a b : Vector2i) : Vector2i :=
  ⟨wrap32 (a.x + b.x), wrap32 (a.y + b.y)⟩

/-- Componentwise difference in `int`, `operator-` of `sf::Vector2i`. -/
def Vector2i.sub (a b : Vector2i) : Vector2i :=
  ⟨wrap32 (a.x - b.x), wrap32 (a.y - b.y)⟩

/-- The enumeration `enum class Direction : int { Left, Up, Right, Down }`. -/
inductive Direction where
  | Left
  | Up
  | Right
  | Down
deriving DecidableEq, Repr

/-- The enumeration `enum class GameStatus : int { InProgress, Win, Loss }`. -/
inductive GameStatus where
  | InProgress
  | Win
  | Loss
deriving DecidableEq, Repr

/-- State of the four arrow keys as seen by `sf::Keyboard::isKeyPressed`. -/
structure Keys where
  left : Bool
  up : Bool
  right : Bool
  down : Bool
deriving DecidableEq, Repr

/-- The function `get_move`: the first pressed key in the order Left, Up, Right, Down. -/
def get_move (k : Keys) : Option Direction :=
  if k.left then some Direction.Left
  else if k.up then some Direction.Up
  else if k.right then some Direction.Right
  else if k.down then some Direction.Down
  else none

/-- `using Apple = sf::Vector2i`. -/
abbrev Apple := Vector2i

/-- The private fields of `class Snake`. -/
structure Snake where
  direction_ : Direction
  head_ : Vector2i
  tail_ : Vector2i
  body_ : List Vector2i
deriving DecidableEq, Repr

/-- The member `bannedTransitions_`, a map with the four keys below. -/
def bannedTransitions_ : Direction → Direction
  | Direction.Right => Direction.Left
  | Direction.Left => Direction.Right
  | Direction.Up => Direction.Down
  | Direction.Down => Direction.Up

namespace Snake

/-- The constructor `Snake(sf::Vector2i start)`. -/
def init (start : Vector2i) : Snake :=
  { direction_ := Direction.Right
    head_ := start
    tail_ := start.sub ⟨1, 0⟩
    body_ := [] }

/-- The method `turn(std::optional<Direction>)`. -/
def turn (s : Snake) (maybeNewDirection : Option Direction) : Snake :=
  match maybeNewDirection with
  | none => s
  | some direction =>
    if bannedTransitions_ s.direction_ ≠ direction then
      { s with direction_ := direction }
    else s

/-- The method `move()`: advance one cell in the current direction. -/
def move (s : Snake) : Snake :=
  let prevHead := s.head_
  let head :=
    match s.direction_ with
    | Direction.Left => prevHead.add ⟨-1, 0⟩
    | Direction.Right => prevHead.add ⟨1, 0⟩
    | Direction.Up => prevHead.add ⟨0, -1⟩
    | Direction.Down => prevHead.add ⟨0, 1⟩
  let pushed := prevHead :: s.body_
  { s with
    head_ := head
    tail_ := pushed.getLast (List.cons_ne_nil prevHead s.body_)
    body_ := pushed.dropLast }

/-- The overload `move(Direction)`: `turn` then `move()`. -/
def moveDir (s : Snake) (maybeNewDirection : Direction) : Snake :=
  (s.turn (some maybeNewDirection)).move

/-- The method `back()`. -/
def back (s : Snake) : Vector2i :=
  match s.body_.getLast? with
  | none => s.head_
  | some b => b

/-- The method `growTail()`. -/
def growTail (s : Snake) : Snake :=
  if s.tail_ ≠ s.back then { s with body_ := s.body_ ++ [s.tail_] } else s

/-- The method `can_eat(Apple)`. -/
def can_eat (s : Snake) (apple : Apple) : Bool :=
  decide (s.head_ = apple)

/-- The method `getGridBody()`: the head, then the body front to back. -/
def getGridBody (s : Snake) : List Vector2i :=
  s.head_ :: s.body_

/-- The method `head()`. -/
def head (s : Snake) : Vector2i :=
  s.head_

/-- The method `isSelfCollision()`. -/
def isSelfCollision (s : Snake) : Bool :=
  s.body_.any (fun bodyCell => decide (bodyCell = s.head_))

/-- The method `length()`: `body_.size() + 1` converted to the return type `int`. -/
def length (s : Snake) : Int :=
  wrap32 ((s.body_.length : Int) + 1)

end Snake

/-- The fields of `struct Grid`. -/
structure Grid where
  width_ : Int
  height_ : Int
  snake_ : Snake
  apple_ : Apple
  gameStatus_ : GameStatus
deriving DecidableEq, Repr

namespace Grid

/-- The value of the expression `width_ * height_`, a product of two `int`. -/
def area (g : Grid) : Int :=
  wrap32 (g.width_ * g.height_)

/-- The set `snakeSetBody` of `spawnApple`, its distinct elements as a list. -/
def snakeSetBody (g : Grid) : List Vector2i :=
  g.snake_.getGridBody.dedup

/-- The cell visited by the loop of `spawnApple` at index `i`:
`x = i % width_`, `y = i / width_` with the truncating division of C++. -/
def cellAt (g : Grid) (i : Nat) : Vector2i :=
  ⟨Int.tmod (i : Int) g.width_, Int.tdiv (i : Int) g.width_⟩

/-- The vector `available` built by the loop of `spawnApple`, for
`i = 0, 1, ..` while `i < width_ * height_`. -/
def available (g : Grid) : List Vector2i :=
  ((List.range g.area.toNat).map g.cellAt).filter
    (fun c => decide (c ∉ g.snakeSetBody))

/-- The method `spawnApple()`, with the value `num` drawn by `RandomGen`.
`available.reserve(width_ * height_ - snakeSetBody.size())` is computed in
`std::size_t`; when the set is larger than the `int` value of `width_ * height_`
the difference wraps to a value above `max_size()` and `reserve` throws
`std::length_error`.
`RandomGen(0, available.size() - 1)` draws `num` in `0 .. available.size() - 1`
when the vector is not empty; `available[num]` has a value only for
`num < available.size()`. -/
def spawnApple (g : Grid) (num : Nat) : Option Vector2i :=
  if (g.snakeSetBody.length : Int) ≤ g.area then
    g.available[num]?
  else none

/-- The constructor `Grid(int width, int height)`; `apple_` is a default
`sf::Vector2i`, which is `(0, 0)`, until `spawnApple` returns. -/
def init (width height : Int) (num : Nat) : Option Grid :=
  let g : Grid :=
    { width_ := width
      height_ := height
      snake_ := Snake.init ⟨0, 0⟩
      apple_ := ⟨0, 0⟩
      gameStatus_ := GameStatus.InProgress }
  (g.spawnApple num).map (fun a => { g with apple_ := a })

/-- The snake after the first statement of `playMove`. -/
def advance (g : Grid) (move : Option Direction) : Snake :=
  match move with
  | none => g.snake_.move
  | some d => g.snake_.moveDir d

/-- The condition of the wall check of `playMove`, before its negation. -/
def insideWalls (g : Grid) (snakeHead : Vector2i) : Bool :=
  decide (0 ≤ snakeHead.x) && decide (snakeHead.x < g.width_) &&
    decide (0 ≤ snakeHead.y) && decide (snakeHead.y < g.height_)

/-- The method `playMove(std::optional<Direction>)`: one tick. The second
component is the text written to `std::cout`. -/
def playMove (g : Grid) (move : Option Direction) (num : Nat) : Option (Grid × String) :=
  let g1 : Grid := { g with snake_ := g.advance move }
  let snakeHead := g1.snake_.head
  if !(g1.insideWalls snakeHead) then
    some ({ g1 with gameStatus_ := GameStatus.Loss }, "RAN INTO A WALL")
  else if g1.snake_.isSelfCollision then
    some ({ g1 with gameStatus_ := GameStatus.Loss }, "RAN INTO MYSELF")
  else
    let eaten := g1.snake_.can_eat g1.apple_
    let g2 : Grid := if eaten then { g1 with snake_ := g1.snake_.growTail } else g1
    if g2.snake_.length = g2.area then
      some ({ g2 with gameStatus_ := GameStatus.Win }, "")
    else if eaten then
      (g2.spawnApple num).map (fun a => ({ g2 with apple_ := a }, ""))
    else some (g2, "")

end Grid

/-- What one iteration of the loop of `main` reads from outside the program. -/
structure Frame where
  closed : Bool
  keysAtTurn : Keys
  delayElapsed : Bool
  keysAtMove : Keys
  num : Nat
deriving DecidableEq, Repr

/-- The variables of `main` that change: the window, the grid and `std::cout`. -/
structure World where
  isOpen : Bool
  grid : Grid
  cout : String
deriving DecidableEq, Repr

/-- The body of the `while` loop of `main`, one iteration. -/
def loopBody (w : World) (f : Frame) : Option World :=
  let isOpen := w.isOpen && !f.closed
  let grid : Grid := { w.grid with snake_ := w.grid.snake_.turn (get_move f.keysAtTurn) }
  if !f.delayElapsed then
    some { w with isOpen := isOpen, grid := grid }
  else
    (grid.playMove (get_move f.keysAtMove) f.num).map
      (fun r => { isOpen := isOpen, grid := r.1, cout := w.cout ++ r.2 })

/-- The `while` loop of `main` run on a finite list of frames: the loop is left
as soon as the window is closed or the status is not `InProgress`. -/
def mainLoop (w : World) : List Frame → Option World
  | [] => some w
  | f :: fs =>
    if w.isOpen && decide (w.grid.gameStatus_ = GameStatus.InProgress) then
      match loopBody w f with
      | none => none
      | some w1 => mainLoop w1 fs
    else some w

/-- States reached from `Grid(width, height)` by calls of `playMove`, with any
requested directions and any draws for which `spawnApple` has a value. -/
inductive Reachable (width height : Int) : Grid → Prop where
  | init (num : Nat) (g : Grid) :
      Grid.init width height num = some g → Reachable width height g
  | tick (g : Grid) (move : Option Direction) (num : Nat) (g1 : Grid) (out : String) :
      Reachable width height g → g.playMove move num = some (g1, out) →
      Reachable width height g1

/-- The spec's opposite pairs: Left and Right, Up and Down. -/
def isOpposite (d r : Direction) : Bool :=
  match d, r with
  | Direction.Left, Direction.Right => true
  | Direction.Right, Direction.Left => true
  | Direction.Up, Direction.Down => true
  | Direction.Down, Direction.Up => true
  | _, _ => false

/-- The tick reaches the food check of `playMove` and the check succeeds: the
advanced head is inside the walls, there is no self-collision, the head is on the apple. -/
def Grid.foodCheckSucceeds (g : Grid) (move : Option Direction) : Bool :=
  g.insideWalls (g.advance move).head && !(g.advance move).isSelfCollision &&
    (g.advance move).can_eat g.apple_

/-- The snake after the food check of `playMove`, grown when the apple was eaten. -/
def Grid.fed (g : Grid) (move : Option Direction) : Snake :=
  if (g.advance move).can_eat g.apple_ then (g.advance move).growTail else g.advance move

/-! ## Predicates of the invariants -/

/-- Row-major order of cells: an earlier row, or the same row and an earlier column. -/
def rowMajorLt (a b : Vector2i) : Prop :=
  a.y < b.y ∨ (a.y = b.y ∧ a.x < b.x)

/-- The snake has no repeated cell and the apple is not on the snake. -/
def Grid.ApplePlaced (g : Grid) : Prop :=
  g.snake_.getGridBody.Nodup ∧ g.apple_ ∉ g.snake_.getGridBody

/-- Every cell of the snake is inside the walls and the snake has fewer cells than
`area`, the `int` value of `width_ * height_`. -/
def Grid.Occupancy (g : Grid) : Prop :=
  (∀ c ∈ g.snake_.getGridBody, g.insideWalls c = true) ∧
    (g.snake_.getGridBody.length : Int) < g.area

/-- The grid on which `playMove` calls `spawnApple`: the snake is the fed snake. -/
def Grid.spawnGrid (g : Grid) (move : Option Direction) : Grid :=
  { g with snake_ := g.fed move }

/-! ## Concrete states used below -/

/-- The grid of the wall-loss scenario: 5 by 2, head at (4, 0), facing Right. -/
def wallGrid : Grid :=
  { width_ := 5
    height_ := 2
    snake_ := { direction_ := Direction.Right, head_ := ⟨4, 0⟩, tail_ := ⟨3, 0⟩, body_ := [] }
    apple_ := ⟨0, 1⟩
    gameStatus_ := GameStatus.InProgress }

/-- A 2 by 1 grid in progress, the apple right in front of the head. -/
def lastAppleGrid : Grid :=
  { width_ := 2
    height_ := 1
    snake_ := { direction_ := Direction.Right, head_ := ⟨0, 0⟩, tail_ := ⟨-1, 0⟩, body_ := [] }
    apple_ := ⟨1, 0⟩
    gameStatus_ := GameStatus.InProgress }

/-- The state `Grid(1, 2)`: the apple can only be drawn at (0, 1). -/
def lossGrid0 : Grid :=
  { width_ := 1
    height_ := 2
    snake_ := Snake.init ⟨0, 0⟩
    apple_ := ⟨0, 1⟩
    gameStatus_ := GameStatus.InProgress }

/-- After one tick heading Right from `lossGrid0`: the head is past the right wall. -/
def lossGrid1 : Grid :=
  { lossGrid0 with
    snake_ := { direction_ := Direction.Right, head_ := ⟨1, 0⟩, tail_ := ⟨0, 0⟩, body_ := [] }
    gameStatus_ := GameStatus.Loss }

/-- After a further tick with request Down: the head is at (1, 1), still outside. -/
def lossGrid2 : Grid :=
  { lossGrid0 with
    snake_ := { direction_ := Direction.Down, head_ := ⟨1, 1⟩, tail_ := ⟨1, 0⟩, body_ := [] }
    gameStatus_ := GameStatus.Loss }

/-- A world of `main` whose grid is `lossGrid1`, the window still open. -/
def lossWorld : World :=
  { isOpen := true, grid := lossGrid1, cout := "RAN INTO A WALL" }

/-- A frame in which the delay has elapsed and no key is pressed. -/
def idleFrame : Frame :=
  { closed := false
    keysAtTurn := ⟨false, false, false, false⟩
    delayElapsed := true
    keysAtMove := ⟨false, false, false, false⟩
    num := 0 }

/-- The state `Grid(3, 3)` when the first apple is drawn at (1, 0). -/
def coilGrid0 : Grid :=
  { width_ := 3
    height_ := 3
    snake_ := Snake.init ⟨0, 0⟩
    apple_ := ⟨1, 0⟩
    gameStatus_ := GameStatus.InProgress }

/-- After eating at (1, 0); the next apple is drawn at (1, 1). -/
def coilGrid1 : Grid :=
  { coilGrid0 with
    snake_ := { direction_ := Direction.Right, head_ := ⟨1, 0⟩, tail_ := ⟨0, 0⟩,
                body_ := [⟨0, 0⟩] }
    apple_ := ⟨1, 1⟩ }

/-- After turning Down and eating at (1, 1); the next apple is drawn at (0, 1). -/
def coilGrid2 : Grid :=
  { coilGrid0 with
    snake_ := { direction_ := Direction.Down, head_ := ⟨1, 1⟩, tail_ := ⟨0, 0⟩,
                body_ := [⟨1, 0⟩, ⟨0, 0⟩] }
    apple_ := ⟨0, 1⟩ }

/-- After turning Left and eating at (0, 1): the snake of length 4 is coiled in the
upper left 2 by 2 block, head (0, 1), then (1, 1), (1, 0) and the tail (0, 0). -/
def coilGrid : Grid :=
  { coilGrid0 with
    snake_ := { direction_ := Direction.Left, head_ := ⟨0, 1⟩, tail_ := ⟨0, 0⟩,
                body_ := [⟨1, 1⟩, ⟨1, 0⟩, ⟨0, 0⟩] }
    apple_ := ⟨2, 2⟩ }

/-- A 3 by 3 grid, the snake of length 5 heading Down along
(0, 2), (0, 1), (0, 0), (1, 0), (1, 1), head last. -/
def biteGrid : Grid :=
  { width_ := 3
    height_ := 3
    snake_ := { direction_ := Direction.Down, head_ := ⟨1, 1⟩, tail_ := ⟨0, 2⟩,
                body_ := [⟨1, 0⟩, ⟨0, 0⟩, ⟨0, 1⟩, ⟨0, 2⟩] }
    apple_ := ⟨2, 2⟩
    gameStatus_ := GameStatus.InProgress }

/-- A 2 by 1 grid with a snake of three cells, all of them beyond the right wall. -/
def strayGrid : Grid :=
  { width_ := 2
    height_ := 1
    snake_ := { direction_ := Direction.Right, head_ := ⟨4, 0⟩, tail_ := ⟨2, 0⟩,
                body_ := [⟨3, 0⟩, ⟨2, 0⟩] }
    apple_ := ⟨0, 0⟩
    gameStatus_ := GameStatus.Loss }

/-! ## Sequences of calls, and the predicates of the snake-level invariants -/

/-- The vector that `move()` adds to the head for each direction. -/
def Direction.unit : Direction → Vector2i
  | Direction.Left => ⟨-1, 0⟩
  | Direction.Right => ⟨1, 0⟩
  | Direction.Up => ⟨0, -1⟩
  | Direction.Down => ⟨0, 1⟩

/-- One call of a public method of `Snake` that changes the snake. -/
inductive SnakeOp where
  | turn (maybeNewDirection : Option Direction)
  | move
  | moveDir (maybeNewDirection : Direction)
  | growTail
deriving DecidableEq, Repr

/-- The snake after one call. -/
def Snake.apply (s : Snake) : SnakeOp → Snake
  | SnakeOp.turn m => s.turn m
  | SnakeOp.move => s.move
  | SnakeOp.moveDir d => s.moveDir d
  | SnakeOp.growTail => s.growTail

/-- The snake after a sequence of calls, first call first. -/
def Snake.run (s : Snake) (ops : List SnakeOp) : Snake :=
  ops.foldl Snake.apply s

/-- Two cells are one grid step apart: one coordinate differs by 1, the other is equal. -/
def stepApart (a b : Vector2i) : Prop :=
  (a.x = b.x ∧ (a.y - b.y = 1 ∨ b.y - a.y = 1)) ∨
    (a.y = b.y ∧ (a.x - b.x = 1 ∨ b.x - a.x = 1))

/-- The grid inside the constructor `Grid(int width, int height)` at the moment it
calls `spawnApple`. -/
def Grid.unspawned (width height : Int) : Grid :=
  { width_ := width
    height_ := height
    snake_ := Snake.init ⟨0, 0⟩
    apple_ := ⟨0, 0⟩
    gameStatus_ := GameStatus.InProgress }

/-- A sequence of `playMove` ticks, each with its requested direction and its draw. -/
def Grid.playMoves (g : Grid) : List (Option Direction × Nat) → Option Grid
  | [] => some g
  | t :: rest =>
    match g.playMove t.1 t.2 with
    | none => none
    | some r => Grid.playMoves r.1 rest

/-- States reached from `Grid(width, height)` by `playMove` ticks that all start in a
state whose status is `InProgress`. -/
inductive ReachableInPlay (width height : Int) : Grid → Prop where
  | init (num : Nat) (g : Grid) :
      Grid.init width height num = some g → ReachableInPlay width height g
  | tick (g : Grid) (move : Option Direction) (num : Nat) (g1 : Grid) (out : String) :
      ReachableInPlay width height g → g.gameStatus_ = GameStatus.InProgress →
      g.playMove move num = some (g1, out) → ReachableInPlay width height g1

/-- The call is one of the two `move` overloads. -/
def SnakeOp.isMove : SnakeOp → Bool
  | SnakeOp.move => true
  | SnakeOp.moveDir _ => true
  | _ => false

/-- The head can make `n` steps in any direction without leaving the range of `int`. -/
def Snake.Room (s : Snake) (n : Nat) : Prop :=
  -2147483648 + (n : Int) ≤ s.head_.x ∧ s.head_.x + n ≤ 2147483647 ∧
    -2147483648 + (n : Int) ≤ s.head_.y ∧ s.head_.y + n ≤ 2147483647

/-- What the snake keeps true under `turn`, `move` and `growTail`: consecutive cells
of `getGridBody()` are one step apart, and the cached tail is the back of the snake
or one step from it. -/
def Snake.Contiguous (s : Snake) : Prop :=
  List.Chain' stepApart s.getGridBody ∧ (s.tail_ = s.back ∨ stepApart s.back s.tail_)

/-! ## Further concrete states -/

/-- A snake of length 2 heading Right from (0, 0) to (1, 0). -/
def neckSnake : Snake :=
  { direction_ := Direction.Right, head_ := ⟨1, 0⟩, tail_ := ⟨0, 0⟩, body_ := [⟨0, 0⟩] }

/-- The state `Grid(5, 2)` when the first apple is drawn at (1, 0). -/
def neckGrid0 : Grid :=
  { width_ := 5
    height_ := 2
    snake_ := Snake.init ⟨0, 0⟩
    apple_ := ⟨1, 0⟩
    gameStatus_ := GameStatus.InProgress }

/-- After eating at (1, 0); the next apple is drawn at (2, 0). -/
def neckGrid1 : Grid :=
  { neckGrid0 with snake_ := neckSnake, apple_ := ⟨2, 0⟩ }

/-- After eating at (2, 0): a snake of length 3 heading Right, head (2, 0), then
(1, 0) and (0, 0); the next apple is drawn at (4, 0). -/
def neckGrid : Grid :=
  { neckGrid0 with
    snake_ := { direction_ := Direction.Right, head_ := ⟨2, 0⟩, tail_ := ⟨0, 0⟩,
                body_ := [⟨1, 0⟩, ⟨0, 0⟩] }
    apple_ := ⟨4, 0⟩ }

/-- The world of `main` that holds `neckGrid`. -/
def neckWorld : World :=
  { isOpen := true, grid := neckGrid, cout := "" }

/-- A frame before the delay has elapsed, the Up key held. -/
def upFrame : Frame :=
  { closed := false
    keysAtTurn := ⟨false, true, false, false⟩
    delayElapsed := false
    keysAtMove := ⟨false, false, false, false⟩
    num := 0 }

/-- A frame in which the delay has elapsed, the Left key held. -/
def leftFrame : Frame :=
  { closed := false
    keysAtTurn := ⟨true, false, false, false⟩
    delayElapsed := true
    keysAtMove := ⟨true, false, false, false⟩
    num := 0 }

/-- The state `Grid(5, 2)` when the first apple is drawn at (4, 0). -/
def straightGrid : Grid :=
  { width_ := 5
    height_ := 2
    snake_ := Snake.init ⟨0, 0⟩
    apple_ := ⟨4, 0⟩
    gameStatus_ := GameStatus.InProgress }

/-- The state `Grid(6, 715827883)`: the product is `2^32 + 2`, which is 2 in `int`; the
apple can only be drawn at (1, 0). -/
def overflowGrid : Grid :=
  { width_ := 6
    height_ := 715827883
    snake_ := Snake.init ⟨0, 0⟩
    apple_ := ⟨1, 0⟩
    gameStatus_ := GameStatus.InProgress }

/-- The state after one tick from `overflowGrid`: the snake has eaten at (1, 0), its
length 2 equals the `int` product and the status is `Win`. -/
def overflowWonGrid : Grid :=
  { overflowGrid with
    snake_ := { direction_ := Direction.Right, head_ := ⟨1, 0⟩, tail_ := ⟨0, 0⟩,
                body_ := [⟨0, 0⟩] }
    gameStatus_ := GameStatus.Win }

/-- The state `Grid(-1, -2)`: the loop of `spawnApple` visits (0, 0) and (0, -1). -/
def negativeGrid : Grid :=
  { width_ := -1
    height_ := -2
    snake_ := Snake.init ⟨0, 0⟩
    apple_ := ⟨0, -1⟩
    gameStatus_ := GameStatus.InProgress }

/-- The state won from `lastAppleGrid`: the snake covers both cells of the 2 by 1 grid. -/
def wonGrid : Grid :=
  { lastAppleGrid with
    snake_ := { direction_ := Direction.Right, head_ := ⟨1, 0⟩, tail_ := ⟨0, 0⟩,
                body_ := [⟨0, 0⟩] }
    gameStatus_ := GameStatus.Win }

/-! ## Theorems -/

/-! ### Arithmetic in `int` -/

theorem wrap32_range (n : Int) : -2147483648 ≤ wrap32 n ∧ wrap32 n < 2147483648 := by
  unfold wrap32
  omega

theorem wrap32_of_range (n : Int) (h1 : -2147483648 ≤ n) (h2 : n < 2147483648) :
    wrap32 n = n := by
  unfold wrap32
  omega

theorem wrap32_le_self (n : Int) (h : -2147483648 ≤ n) : wrap32 n ≤ n := by
  unfold wrap32
  omega

theorem wrap32_succ_le (n : Int) : wrap32 (n + 1) ≤ wrap32 n + 1 := by
  unfold wrap32
  omega

theorem wrap32_succ_ne (n : Int) : wrap32 (n + 1) ≠ n := by
  unfold wrap32
  omega

theorem wrap32_pred_ne (n : Int) : wrap32 (n + -1) ≠ n := by
  unfold wrap32
  omega

/-- A product of two positive `int` that does not exceed `INT_MAX` is computed exactly. -/
theorem Grid.area_eq (g : Grid) (hw : 1 ≤ g.width_) (hh : 1 ≤ g.height_)
    (hprod : g.width_ * g.height_ ≤ 2147483647) : g.area = g.width_ * g.height_ := by
  have : 0 < g.width_ * g.height_ := by positivity
  exact wrap32_of_range _ (by omega) (by omega)

/-- For positive factors the `int` value of the product is at most the product. -/
theorem Grid.area_le (g : Grid) (hw : 1 ≤ g.width_) (hh : 1 ≤ g.height_) :
    g.area ≤ g.width_ * g.height_ := by
  have : 0 < g.width_ * g.height_ := by positivity
  exact wrap32_le_self _ (by omega)

/-! ### Unfolding lemmas -/

theorem Snake.turn_head (s : Snake) (m : Option Direction) : (s.turn m).head_ = s.head_ := by
  cases m with
  | none => rfl
  | some d =>
    simp only [Snake.turn]
    split_ifs <;> rfl

theorem Snake.turn_body (s : Snake) (m : Option Direction) : (s.turn m).body_ = s.body_ := by
  cases m with
  | none => rfl
  | some d =>
    simp only [Snake.turn]
    split_ifs <;> rfl

theorem Snake.turn_tail (s : Snake) (m : Option Direction) : (s.turn m).tail_ = s.tail_ := by
  cases m with
  | none => rfl
  | some d =>
    simp only [Snake.turn]
    split_ifs <;> rfl

theorem Snake.move_length (s : Snake) : s.move.length = s.length := by
  simp [Snake.move, Snake.length]

theorem Snake.turn_length (s : Snake) (m : Option Direction) :
    (s.turn m).length = s.length := by
  simp only [Snake.length, Snake.turn_body]

theorem Grid.advance_eq (g : Grid) (move : Option Direction) :
    g.advance move = (g.snake_.turn move).move := by
  cases move <;> rfl

theorem Grid.advance_length (g : Grid) (move : Option Direction) :
    (g.advance move).length = g.snake_.length := by
  rw [Grid.advance_eq, Snake.move_length, Snake.turn_length]

theorem Grid.advance_body (g : Grid) (move : Option Direction) :
    (g.advance move).body_ = (g.snake_.head_ :: g.snake_.body_).dropLast := by
  rw [Grid.advance_eq]
  simp only [Snake.move, Snake.turn_head, Snake.turn_body]

theorem Grid.insideWalls_iff (g : Grid) (c : Vector2i) :
    g.insideWalls c = true ↔ 0 ≤ c.x ∧ c.x < g.width_ ∧ 0 ≤ c.y ∧ c.y < g.height_ := by
  simp [Grid.insideWalls, and_assoc]

theorem Grid.insideWalls_false_iff (g : Grid) (c : Vector2i) :
    g.insideWalls c = false ↔ c.x < 0 ∨ g.width_ ≤ c.x ∨ c.y < 0 ∨ g.height_ ≤ c.y := by
  rw [← Bool.not_eq_true, Grid.insideWalls_iff]
  constructor
  · intro h
    by_contra hc
    push_neg at hc
    exact h ⟨hc.1, hc.2.1, hc.2.2.1, hc.2.2.2⟩
  · rintro h ⟨h1, h2, h3, h4⟩
    omega

/-- The body of `playMove` as a chain of its five exits. -/
theorem Grid.playMove_eq (g : Grid) (move : Option Direction) (num : Nat) :
    g.playMove move num =
      if g.insideWalls (g.advance move).head = false then
        some ({ g with snake_ := g.advance move, gameStatus_ := GameStatus.Loss },
          "RAN INTO A WALL")
      else if (g.advance move).isSelfCollision = true then
        some ({ g with snake_ := g.advance move, gameStatus_ := GameStatus.Loss },
          "RAN INTO MYSELF")
      else if (g.fed move).length = g.area then
        some ({ g with snake_ := g.fed move, gameStatus_ := GameStatus.Win }, "")
      else if (g.advance move).can_eat g.apple_ = true then
        (Grid.spawnApple { g with snake_ := g.fed move } num).map
          (fun a => ({ g with snake_ := g.fed move, apple_ := a }, ""))
      else some ({ g with snake_ := g.fed move }, "") := by
  unfold Grid.playMove Grid.fed
  cases h1 : g.insideWalls (g.advance move).head <;>
    cases h2 : (g.advance move).isSelfCollision <;>
    cases h3 : (g.advance move).can_eat g.apple_ <;>
    simp [Grid.insideWalls, Snake.head, Grid.area] at h1 ⊢ <;>
    simp_all [Grid.insideWalls, Snake.head, Grid.area]

/-- A tick sets the status to `Win` or `Loss` or leaves it as it was. -/
theorem Grid.playMove_status (g : Grid) (move : Option Direction) (num : Nat)
    (r : Grid × String) (hr : g.playMove move num = some r) :
    r.1.gameStatus_ = g.gameStatus_ ∨ r.1.gameStatus_ = GameStatus.Win ∨
      r.1.gameStatus_ = GameStatus.Loss := by
  rw [Grid.playMove_eq] at hr
  split_ifs at hr with h1 h2 h3 h4
  · cases hr; exact Or.inr (Or.inr rfl)
  · cases hr; exact Or.inr (Or.inr rfl)
  · cases hr; exact Or.inr (Or.inl rfl)
  · rcases hs : Grid.spawnApple { g with snake_ := g.fed move } num with _ | a
    · simp [hs] at hr
    · simp [hs] at hr
      subst hr; exact Or.inl rfl
  · cases hr; exact Or.inl rfl

/-- The loop of `main` is not entered when the status is not `InProgress`. -/
theorem mainLoop_terminal (w : World) (frames : List Frame)
    (h : w.grid.gameStatus_ ≠ GameStatus.InProgress) : mainLoop w frames = some w := by
  cases frames with
  | nil => rfl
  | cons f fs => simp [mainLoop, h]

/-! ### The cells visited by `spawnApple` and the invariants of a run -/

theorem Grid.cellAt_eq (g : Grid) (hw : 1 ≤ g.width_) (i : Nat) :
    g.cellAt i = ⟨((i % g.width_.toNat : Nat) : Int), ((i / g.width_.toNat : Nat) : Int)⟩ := by
  have h : g.width_ = (g.width_.toNat : Int) := (Int.toNat_of_nonneg (by omega)).symm
  unfold Grid.cellAt
  rw [Int.ofNat_tmod, Int.ofNat_tdiv, ← h]

theorem Grid.cells_pairwise (g : Grid) (hw : 1 ≤ g.width_) (n : Nat) :
    ((List.range n).map g.cellAt).Pairwise rowMajorLt := by
  rw [List.pairwise_map]
  refine (List.pairwise_lt_range n).imp ?_
  intro i j hij
  rw [g.cellAt_eq hw, g.cellAt_eq hw]
  have hW : 0 < g.width_.toNat := by omega
  unfold rowMajorLt
  simp only [Nat.cast_lt, Nat.cast_inj]
  have hle : i / g.width_.toNat ≤ j / g.width_.toNat := Nat.div_le_div_right hij.le
  rcases Nat.lt_or_eq_of_le hle with h | h
  · exact Or.inl h
  · refine Or.inr ⟨h, ?_⟩
    have hi := Nat.div_add_mod i g.width_.toNat
    have hj := Nat.div_add_mod j g.width_.toNat
    rw [h] at hi
    omega

theorem Grid.cellAt_zero (g : Grid) : g.cellAt 0 = ⟨0, 0⟩ := by
  simp [Grid.cellAt]

/-- For positive dimensions every cell that the loop of `spawnApple` visits is inside
the walls, also when `width_ * height_` overflows. -/
theorem Grid.inside_of_mem_cells (g : Grid) (hw : 1 ≤ g.width_) (hh : 1 ≤ g.height_)
    (c : Vector2i) (hc : c ∈ (List.range g.area.toNat).map g.cellAt) :
    0 ≤ c.x ∧ c.x < g.width_ ∧ 0 ≤ c.y ∧ c.y < g.height_ := by
  obtain ⟨W, hW⟩ : ∃ W : Nat, g.width_ = (W : Int) :=
    ⟨g.width_.toNat, (Int.toNat_of_nonneg (by omega)).symm⟩
  obtain ⟨H, hH⟩ : ∃ H : Nat, g.height_ = (H : Int) :=
    ⟨g.height_.toNat, (Int.toNat_of_nonneg (by omega)).symm⟩
  have hWpos : 0 < W := by omega
  have hle := g.area_le hw hh
  have hn : g.area.toNat ≤ W * H := by
    rw [hW, hH, ← Nat.cast_mul] at hle
    omega
  simp only [List.mem_map, List.mem_range] at hc
  obtain ⟨i, hi, rfl⟩ := hc
  rw [g.cellAt_eq hw]
  have hWt : g.width_.toNat = W := by rw [hW, Int.toNat_ofNat]
  rw [hWt, hW, hH]
  simp only [Nat.cast_lt]
  refine ⟨Int.natCast_nonneg _, Nat.mod_lt _ hWpos, Int.natCast_nonneg _, ?_⟩
  exact Nat.div_lt_of_lt_mul (lt_of_lt_of_le hi hn)

/-- When `width_ * height_` does not overflow, the loop of `spawnApple` visits exactly
the cells inside the walls. -/
theorem Grid.mem_cells (g : Grid) (hw : 1 ≤ g.width_) (hh : 1 ≤ g.height_)
    (harea : g.area = g.width_ * g.height_) (c : Vector2i) :
    c ∈ (List.range g.area.toNat).map g.cellAt ↔
      0 ≤ c.x ∧ c.x < g.width_ ∧ 0 ≤ c.y ∧ c.y < g.height_ := by
  rw [harea]
  obtain ⟨W, hW⟩ : ∃ W : Nat, g.width_ = (W : Int) := ⟨g.width_.toNat, (Int.toNat_of_nonneg (by omega)).symm⟩
  obtain ⟨H, hH⟩ : ∃ H : Nat, g.height_ = (H : Int) := ⟨g.height_.toNat, (Int.toNat_of_nonneg (by omega)).symm⟩
  have hWpos : 0 < W := by omega
  have hn : (g.width_ * g.height_).toNat = W * H := by
    rw [hW, hH, ← Nat.cast_mul, Int.toNat_ofNat]
  simp only [List.mem_map, List.mem_range, hn]
  constructor
  · rintro ⟨i, hi, rfl⟩
    rw [g.cellAt_eq hw]
    have hWt : g.width_.toNat = W := by rw [hW, Int.toNat_ofNat]
    rw [hWt, hW, hH]
    simp only [Nat.cast_lt]
    refine ⟨Int.natCast_nonneg _, Nat.mod_lt _ hWpos, Int.natCast_nonneg _, ?_⟩
    exact Nat.div_lt_of_lt_mul hi
  · rintro ⟨hx0, hx1, hy0, hy1⟩
    obtain ⟨x, hx⟩ : ∃ x : Nat, c.x = (x : Int) := ⟨c.x.toNat, (Int.toNat_of_nonneg hx0).symm⟩
    obtain ⟨y, hy⟩ : ∃ y : Nat, c.y = (y : Int) := ⟨c.y.toNat, (Int.toNat_of_nonneg hy0).symm⟩
    have hxW : x < W := by omega
    have hyH : y < H := by omega
    refine ⟨y * W + x, ?_, ?_⟩
    · calc y * W + x < y * W + W := by omega
        _ = W * (y + 1) := by ring
        _ ≤ W * H := Nat.mul_le_mul_left W (by omega)
    · rw [g.cellAt_eq hw]
      have hWt : g.width_.toNat = W := by rw [hW, Int.toNat_ofNat]
      rw [hWt]
      have h1 : (y * W + x) % W = x := by
        rw [Nat.add_comm, Nat.add_mul_mod_self_right, Nat.mod_eq_of_lt hxW]
      have h2 : (y * W + x) / W = y := by
        rw [Nat.add_comm, Nat.add_mul_div_right _ _ hWpos, Nat.div_eq_of_lt hxW, Nat.zero_add]
      rw [h1, h2]
      cases c
      simp_all

theorem rowMajorLt_ne {a b : Vector2i} (h : rowMajorLt a b) : a ≠ b := by
  rintro rfl
  rcases h with h | ⟨_, h⟩ <;> omega

theorem Grid.mem_available (g : Grid) (hw : 1 ≤ g.width_) (hh : 1 ≤ g.height_)
    (harea : g.area = g.width_ * g.height_) (c : Vector2i) :
    c ∈ g.available ↔
      (0 ≤ c.x ∧ c.x < g.width_ ∧ 0 ≤ c.y ∧ c.y < g.height_) ∧ c ∉ g.snake_.getGridBody := by
  unfold Grid.available Grid.snakeSetBody
  rw [List.mem_filter, g.mem_cells hw hh harea]
  simp [List.mem_dedup]

theorem Grid.available_not_mem (g : Grid) (c : Vector2i) (h : c ∈ g.available) :
    c ∉ g.snake_.getGridBody := by
  unfold Grid.available Grid.snakeSetBody at h
  rw [List.mem_filter] at h
  simpa [List.mem_dedup] using h.2

theorem Grid.available_pairwise (g : Grid) (hw : 1 ≤ g.width_) :
    g.available.Pairwise rowMajorLt :=
  (g.cells_pairwise hw _).filter _

theorem Grid.available_nodup (g : Grid) (hw : 1 ≤ g.width_) : g.available.Nodup :=
  (g.available_pairwise hw).imp rowMajorLt_ne

theorem Grid.spawnApple_mem (g : Grid) (num : Nat) (a : Vector2i)
    (h : g.spawnApple num = some a) : a ∈ g.available := by
  unfold Grid.spawnApple at h
  split_ifs at h
  exact List.mem_iff_getElem?.mpr ⟨num, h⟩

theorem Grid.spawnApple_eq (g : Grid) (num : Nat)
    (h : (g.snakeSetBody.length : Int) ≤ g.area) :
    g.spawnApple num = g.available[num]? := by
  unfold Grid.spawnApple
  rw [if_pos h]

theorem Grid.advance_gridBody (g : Grid) (move : Option Direction) :
    (g.advance move).getGridBody = (g.advance move).head_ :: g.snake_.getGridBody.dropLast := by
  simp only [Snake.getGridBody, g.advance_body]

theorem Grid.advance_tail (g : Grid) (move : Option Direction) :
    (g.advance move).tail_ =
      g.snake_.getGridBody.getLast (List.cons_ne_nil g.snake_.head_ g.snake_.body_) := by
  rw [Grid.advance_eq]
  simp only [Snake.move, Snake.getGridBody, Snake.turn_head, Snake.turn_body]

theorem Snake.move_head_ne (s : Snake) : s.move.head_ ≠ s.head_ := by
  intro h
  have hx := congrArg Vector2i.x h
  have hy := congrArg Vector2i.y h
  cases hd : s.direction_ <;> simp only [Snake.move, Vector2i.add, hd] at hx hy
  · exact wrap32_pred_ne _ hx
  · exact wrap32_pred_ne _ hy
  · exact wrap32_succ_ne _ hx
  · exact wrap32_succ_ne _ hy

theorem Grid.advance_head_ne (g : Grid) (move : Option Direction) :
    (g.advance move).head_ ≠ g.snake_.head_ := by
  rw [Grid.advance_eq]
  have h := (g.snake_.turn move).move_head_ne
  rwa [Snake.turn_head] at h

/-- After an advance from a snake without repeated cells the guard of `growTail` holds. -/
theorem Grid.advance_tail_ne_back (g : Grid) (move : Option Direction)
    (hnd : g.snake_.getGridBody.Nodup) :
    (g.advance move).tail_ ≠ (g.advance move).back := by
  have hne : g.snake_.getGridBody ≠ [] := List.cons_ne_nil _ _
  have hsplit := List.dropLast_append_getLast hne
  rw [← g.advance_tail move] at hsplit
  have hnd2 : (g.snake_.getGridBody.dropLast ++ [(g.advance move).tail_]).Nodup := by
    rw [hsplit]; exact hnd
  have hnot : (g.advance move).tail_ ∉ g.snake_.getGridBody.dropLast := by
    intro hm
    have := List.disjoint_of_nodup_append hnd2 hm (List.mem_singleton_self _)
    exact this
  unfold Snake.back
  cases hb : (g.advance move).body_.getLast? with
  | none =>
    simp only
    have hnil : (g.advance move).body_ = [] := List.getLast?_eq_none_iff.mp hb
    rw [g.advance_body] at hnil
    have hbody : g.snake_.body_ = [] := by
      cases hbb : g.snake_.body_ with
      | nil => rfl
      | cons b bs =>
        rw [hbb, List.dropLast_cons_of_ne_nil (List.cons_ne_nil b bs)] at hnil
        exact absurd hnil (List.cons_ne_nil _ _)
    have htail : (g.advance move).tail_ = g.snake_.head_ := by
      rw [g.advance_tail]
      simp [Snake.getGridBody, hbody]
    rw [htail]
    exact (g.advance_head_ne move).symm
  | some b =>
    simp only
    have hmem : b ∈ (g.advance move).body_ := List.mem_of_getLast?_eq_some hb
    rw [g.advance_body] at hmem
    intro heq
    exact hnot (heq ▸ hmem)

theorem Grid.advance_growTail_gridBody (g : Grid) (move : Option Direction)
    (hnd : g.snake_.getGridBody.Nodup) :
    (g.advance move).growTail.getGridBody = (g.advance move).head_ :: g.snake_.getGridBody := by
  have hguard := g.advance_tail_ne_back move hnd
  have hne : g.snake_.getGridBody ≠ [] := List.cons_ne_nil _ _
  simp only [Snake.growTail, if_pos hguard, Snake.getGridBody, g.advance_body]
  rw [g.advance_tail]
  congr 1
  exact List.dropLast_append_getLast hne

theorem Grid.init_applePlaced (width height : Int) (num : Nat) (g : Grid)
    (h : Grid.init width height num = some g) : g.ApplePlaced := by
  unfold Grid.init at h
  simp only [Option.map_eq_some'] at h
  obtain ⟨a, ha, rfl⟩ := h
  refine ⟨by simp [Snake.getGridBody, Snake.init], ?_⟩
  exact Grid.available_not_mem _ a (Grid.spawnApple_mem _ num a ha)

theorem Snake.isSelfCollision_false_iff (s : Snake) :
    s.isSelfCollision = false ↔ s.head_ ∉ s.body_ := by
  rw [← Bool.not_eq_true]
  simp only [Snake.isSelfCollision, List.any_eq_true, decide_eq_true_eq]
  constructor
  · intro h hm
    exact h ⟨s.head_, hm, rfl⟩
  · rintro h ⟨c, hc, rfl⟩
    exact h hc

theorem Grid.advance_nodup (g : Grid) (move : Option Direction)
    (hnd : g.snake_.getGridBody.Nodup) (hcol : (g.advance move).isSelfCollision = false) :
    (g.advance move).getGridBody.Nodup := by
  have hc := (Snake.isSelfCollision_false_iff _).mp hcol
  rw [g.advance_body] at hc
  rw [g.advance_gridBody]
  exact List.nodup_cons.mpr ⟨hc, hnd.sublist (List.dropLast_sublist _)⟩

/-- A tick that ends with status `InProgress` started with status `InProgress` and
keeps `ApplePlaced`. -/
theorem Grid.playMove_applePlaced (g : Grid) (move : Option Direction) (num : Nat)
    (r : Grid × String) (hr : g.playMove move num = some r)
    (hs : r.1.gameStatus_ = GameStatus.InProgress) :
    g.gameStatus_ = GameStatus.InProgress ∧ (g.ApplePlaced → r.1.ApplePlaced) := by
  rw [Grid.playMove_eq] at hr
  split_ifs at hr with h1 h2 h3 h4
  · cases hr; cases hs
  · cases hr; cases hs
  · cases hr; cases hs
  · rcases hsp : Grid.spawnApple { g with snake_ := g.fed move } num with _ | a
    · simp [hsp] at hr
    · simp only [hsp, Option.map_some', Option.some.injEq] at hr
      subst hr
      refine ⟨hs, ?_⟩
      rintro ⟨hnd, happle⟩
      have hfed : g.fed move = (g.advance move).growTail := by simp [Grid.fed, h4]
      have hhead : (g.advance move).head_ = g.apple_ := by
        simpa [Snake.can_eat] using h4
      refine ⟨?_, ?_⟩
      · show (g.fed move).getGridBody.Nodup
        rw [hfed, g.advance_growTail_gridBody move hnd, hhead]
        exact List.nodup_cons.mpr ⟨happle, hnd⟩
      · exact Grid.available_not_mem _ a (Grid.spawnApple_mem _ num a hsp)
  · cases hr
    refine ⟨hs, ?_⟩
    rintro ⟨hnd, happle⟩
    have hcan : (g.advance move).can_eat g.apple_ = false := by simpa using h4
    have hfed : g.fed move = g.advance move := by simp [Grid.fed, hcan]
    have hhead : (g.advance move).head_ ≠ g.apple_ := by
      simpa [Snake.can_eat] using hcan
    have hcol : (g.advance move).isSelfCollision = false := by simpa using h2
    refine ⟨?_, ?_⟩
    · show (g.fed move).getGridBody.Nodup
      rw [hfed]
      exact g.advance_nodup move hnd hcol
    · show g.apple_ ∉ (g.fed move).getGridBody
      rw [hfed, g.advance_gridBody]
      intro hm
      rcases List.mem_cons.mp hm with h | h
      · exact hhead h.symm
      · exact happle (List.dropLast_subset _ h)

theorem Reachable.applePlaced {width height : Int} {g : Grid} (h : Reachable width height g) :
    g.gameStatus_ = GameStatus.InProgress → g.ApplePlaced := by
  induction h with
  | init num g hinit => exact fun _ => Grid.init_applePlaced width height num g hinit
  | tick g move num g1 out _ hstep ih =>
    intro hs
    obtain ⟨hs0, hkeep⟩ := Grid.playMove_applePlaced g move num (g1, out) hstep hs
    exact hkeep (ih hs0)

theorem Grid.cells_nodup (g : Grid) (hw : 1 ≤ g.width_) (n : Nat) :
    ((List.range n).map g.cellAt).Nodup :=
  (g.cells_pairwise hw n).imp rowMajorLt_ne

/-- Pigeonhole: when `width_ * height_` does not overflow, distinct cells inside the
walls are at most `width_ * height_`. -/
theorem Grid.length_le_area (g : Grid) (hw : 1 ≤ g.width_) (hh : 1 ≤ g.height_)
    (harea : g.area = g.width_ * g.height_)
    (l : List Vector2i) (hnd : l.Nodup) (hin : ∀ c ∈ l, g.insideWalls c = true) :
    (l.length : Int) ≤ g.area := by
  have hsub : l ⊆ (List.range g.area.toNat).map g.cellAt := by
    intro c hc
    exact (g.mem_cells hw hh harea c).mpr ((g.insideWalls_iff c).mp (hin c hc))
  have hle := (hnd.subperm hsub).length_le
  rw [List.length_map, List.length_range] at hle
  have hpos : 0 ≤ g.area := by
    rw [harea]; positivity
  omega

/-- The `int` returned by `length()` is the number of cells while that number is an `int`. -/
theorem Snake.length_eq (s : Snake) (h : (s.getGridBody.length : Int) < 2147483648) :
    s.length = (s.getGridBody.length : Int) := by
  simp only [Snake.getGridBody, List.length_cons, Nat.cast_add, Nat.cast_one] at h ⊢
  exact wrap32_of_range _ (by omega) h

theorem Grid.area_lt (g : Grid) : g.area < 2147483648 :=
  (wrap32_range _).2

/-- A `length()` equal to the exact product is equal to its `int` value. -/
theorem Grid.length_eq_area (g : Grid) (s : Snake) (h : s.length = g.width_ * g.height_) :
    s.length = g.area := by
  unfold Grid.area
  rw [← h]
  unfold Snake.length wrap32
  omega

/-- A snake with fewer cells than the loop of `spawnApple` visits leaves a cell free. -/
theorem Grid.available_ne_nil (g : Grid) (hw : 1 ≤ g.width_)
    (hlen : (g.snake_.getGridBody.length : Int) < g.area) : g.available ≠ [] := by
  intro hnil
  have hsub : (List.range g.area.toNat).map g.cellAt ⊆ g.snake_.getGridBody := by
    intro c hc
    by_contra hnot
    have : c ∈ g.available := by
      unfold Grid.available Grid.snakeSetBody
      rw [List.mem_filter]
      exact ⟨hc, by simpa [List.mem_dedup] using hnot⟩
    rw [hnil] at this
    exact List.not_mem_nil _ this
  have hle := ((g.cells_nodup hw _).subperm hsub).length_le
  rw [List.length_map, List.length_range] at hle
  omega

theorem Grid.reserve_ok (g : Grid) (hlen : (g.snake_.getGridBody.length : Int) < g.area) :
    (g.snakeSetBody.length : Int) ≤ g.area := by
  have h1 : g.snakeSetBody.length ≤ g.snake_.getGridBody.length :=
    (List.dedup_sublist _).length_le
  omega

theorem Reachable.dims {width height : Int} {g : Grid} (h : Reachable width height g) :
    g.width_ = width ∧ g.height_ = height := by
  induction h with
  | init num g hinit =>
    unfold Grid.init at hinit
    simp only [Option.map_eq_some'] at hinit
    obtain ⟨a, _, rfl⟩ := hinit
    exact ⟨rfl, rfl⟩
  | tick g move num g1 out _ hstep ih =>
    rw [Grid.playMove_eq] at hstep
    split_ifs at hstep with h1 h2 h3 h4
    · cases hstep; exact ih
    · cases hstep; exact ih
    · cases hstep; exact ih
    · rcases hsp : Grid.spawnApple { g with snake_ := g.fed move } num with _ | a
      · simp [hsp] at hstep
      · simp only [hsp, Option.map_some', Option.some.injEq, Prod.mk.injEq] at hstep
        obtain ⟨rfl, _⟩ := hstep
        exact ih
    · cases hstep; exact ih

/-- When the constructor returns, the `int` value of `width_ * height_` is at least 2. -/
theorem Grid.init_area (width height : Int) (num : Nat) (g : Grid)
    (h : Grid.init width height num = some g) : 2 ≤ g.area := by
  unfold Grid.init at h
  simp only [Option.map_eq_some'] at h
  obtain ⟨a, ha, rfl⟩ := h
  have hmem := Grid.spawnApple_mem _ num a ha
  have hnot := Grid.available_not_mem _ a hmem
  unfold Grid.available at hmem
  rw [List.mem_filter, List.mem_map] at hmem
  obtain ⟨⟨i, hi, hcell⟩, _⟩ := hmem
  rw [List.mem_range] at hi
  have hi0 : i ≠ 0 := by
    rintro rfl
    rw [Grid.cellAt_zero] at hcell
    apply hnot
    rw [← hcell]
    simp [Snake.getGridBody, Snake.init]
  simp only [Grid.area] at hi ⊢
  omega

theorem Grid.init_occupancy (width height : Int) (hw : 1 ≤ width) (hh : 1 ≤ height)
    (num : Nat) (g : Grid) (h : Grid.init width height num = some g) : g.Occupancy := by
  have harea := Grid.init_area width height num g h
  unfold Grid.init at h
  simp only [Option.map_eq_some'] at h
  obtain ⟨a, ha, rfl⟩ := h
  constructor
  · intro c hc
    simp only [Snake.getGridBody, Snake.init, List.mem_singleton] at hc
    subst hc
    rw [Grid.insideWalls_iff]
    exact ⟨le_refl _, by show (0:Int) < width; omega, le_refl _, by show (0:Int) < height; omega⟩
  · simp only [Snake.getGridBody, Snake.init, List.length_singleton, Nat.cast_one, Grid.area]
      at harea ⊢
    omega

/-- After an eating advance from a snake without repeated cells the fed snake is the
new head in front of the old cells. -/
theorem Grid.fed_gridBody (g : Grid) (move : Option Direction)
    (hnd : g.snake_.getGridBody.Nodup) (heat : (g.advance move).can_eat g.apple_ = true) :
    (g.fed move).getGridBody = (g.advance move).head_ :: g.snake_.getGridBody := by
  have hfed : g.fed move = (g.advance move).growTail := by simp [Grid.fed, heat]
  rw [hfed, g.advance_growTail_gridBody move hnd]

/-- A tick that ends with status `InProgress` keeps `Occupancy`. -/
theorem Grid.playMove_occupancy (g : Grid) (move : Option Direction) (num : Nat)
    (r : Grid × String) (hr : g.playMove move num = some r)
    (hs : r.1.gameStatus_ = GameStatus.InProgress)
    (hap : g.ApplePlaced) (hocc : g.Occupancy) : r.1.Occupancy := by
  obtain ⟨hnd, happle⟩ := hap
  obtain ⟨hin, hlen⟩ := hocc
  have hdrop : ∀ c ∈ g.snake_.getGridBody.dropLast, g.insideWalls c = true :=
    fun c hc => hin c (List.dropLast_subset _ hc)
  have hlt := g.area_lt
  rw [Grid.playMove_eq] at hr
  split_ifs at hr with h1 h2 h3 h4
  · cases hr; cases hs
  · cases hr; cases hs
  · cases hr; cases hs
  · have hhead : g.insideWalls (g.advance move).head_ = true := by simpa [Snake.head] using h1
    have hbody := g.fed_gridBody move hnd h4
    have hinFed : ∀ c ∈ (g.fed move).getGridBody, g.insideWalls c = true := by
      intro c hc
      rw [hbody] at hc
      rcases List.mem_cons.mp hc with h | h
      · rw [h]; exact hhead
      · exact hin c h
    have hcount : ((g.fed move).getGridBody.length : Int)
        = (g.snake_.getGridBody.length : Int) + 1 := by
      rw [hbody]; simp
    have hlenFed : ((g.fed move).getGridBody.length : Int) < g.area := by
      have hl := (g.fed move).length_eq (by omega)
      rw [hl] at h3
      omega
    rcases hsp : Grid.spawnApple { g with snake_ := g.fed move } num with _ | a
    · simp [hsp] at hr
    · simp only [hsp, Option.map_some', Option.some.injEq] at hr
      subst hr
      exact ⟨hinFed, hlenFed⟩
  · cases hr
    have hhead : g.insideWalls (g.advance move).head_ = true := by simpa [Snake.head] using h1
    have hcan : (g.advance move).can_eat g.apple_ = false := by simpa using h4
    have hfed : g.fed move = g.advance move := by simp [Grid.fed, hcan]
    refine ⟨?_, ?_⟩
    · intro c hc
      change c ∈ (g.fed move).getGridBody at hc
      rw [hfed, g.advance_gridBody] at hc
      rcases List.mem_cons.mp hc with h | h
      · rw [h]; exact hhead
      · exact hdrop c h
    · show ((g.fed move).getGridBody.length : Int) < g.area
      rw [hfed, g.advance_gridBody]
      simp only [List.length_cons, List.length_dropLast, Snake.getGridBody] at hlen ⊢
      omega

theorem Reachable.occupancy {width height : Int} {g : Grid} (h : Reachable width height g)
    (hw : 1 ≤ width) (hh : 1 ≤ height) :
    g.gameStatus_ = GameStatus.InProgress → g.Occupancy := by
  induction h with
  | init num g hinit => exact fun _ => Grid.init_occupancy width height hw hh num g hinit
  | tick g move num g1 out hprev hstep ih =>
    intro hs
    obtain ⟨hs0, _⟩ := Grid.playMove_applePlaced g move num (g1, out) hstep hs
    obtain ⟨hgw, hgh⟩ := hprev.dims
    exact Grid.playMove_occupancy g move num (g1, out) hstep hs
      (hprev.applePlaced hs0) (ih hs0)

/-! ### Reachability of the concrete states -/

theorem coilGrid1_reachable : Reachable 3 3 coilGrid1 :=
  Reachable.tick coilGrid0 none 2 coilGrid1 ""
    (Reachable.init 0 coilGrid0 (by decide)) (by decide)

theorem coilGrid2_reachable : Reachable 3 3 coilGrid2 :=
  Reachable.tick coilGrid1 (some Direction.Down) 1 coilGrid2 "" coilGrid1_reachable (by decide)

theorem coilGrid_reachable : Reachable 3 3 coilGrid :=
  Reachable.tick coilGrid2 (some Direction.Left) 4 coilGrid "" coilGrid2_reachable (by decide)

theorem lossGrid2_reachable : Reachable 1 2 lossGrid2 :=
  Reachable.tick lossGrid1 (some Direction.Down) 0 lossGrid2 "RAN INTO A WALL"
    (Reachable.tick lossGrid0 none 0 lossGrid1 "RAN INTO A WALL"
      (Reachable.init 0 lossGrid0 (by decide)) (by decide))
    (by decide)

/-! ### The snake under sequences of calls -/

theorem Grid.init_eq (width height : Int) (num : Nat) :
    Grid.init width height num =
      ((Grid.unspawned width height).spawnApple num).map
        (fun a => { Grid.unspawned width height with apple_ := a }) := rfl

theorem Snake.growTail_tail_eq_back (s : Snake) : s.growTail.tail_ = s.growTail.back := by
  unfold Snake.growTail
  split_ifs with h
  · simp [Snake.back]
  · exact not_not.mp h

theorem Snake.growTail_of_eq (s : Snake) (h : s.tail_ = s.back) : s.growTail = s := by
  unfold Snake.growTail
  rw [if_neg (not_not.mpr h)]

theorem Snake.growTail_idem (s : Snake) : s.growTail.growTail = s.growTail :=
  s.growTail.growTail_of_eq s.growTail_tail_eq_back

theorem Snake.growTail_length_le (s : Snake) : s.growTail.length ≤ s.length + 1 := by
  unfold Snake.growTail
  split_ifs
  · simp only [Snake.length, List.length_append, List.length_singleton, Nat.cast_add,
      Nat.cast_one]
    exact wrap32_succ_le _
  · omega

theorem Snake.turn_back (s : Snake) (m : Option Direction) : (s.turn m).back = s.back := by
  simp only [Snake.back, Snake.turn_body, Snake.turn_head]

/-- Without a `move()` in between, calls of `turn` and `growTail` on a snake whose
cached tail is its back change neither the length nor that property. -/
theorem Snake.run_noMove_of_eq (ops : List SnakeOp) (hops : ∀ op ∈ ops, op.isMove = false) :
    ∀ s : Snake, s.tail_ = s.back →
      (s.run ops).length = s.length ∧ (s.run ops).tail_ = (s.run ops).back := by
  induction ops with
  | nil => intro s h; exact ⟨rfl, h⟩
  | cons op rest ih =>
    intro s h
    have hrest : ∀ op ∈ rest, op.isMove = false :=
      fun o ho => hops o (List.mem_cons_of_mem _ ho)
    have hop := hops op (List.mem_cons_self _ _)
    cases op with
    | turn m =>
      have h1 : (s.turn m).tail_ = (s.turn m).back := by
        rw [Snake.turn_tail, Snake.turn_back]; exact h
      have := ih hrest (s.turn m) h1
      simpa [Snake.run, Snake.apply, Snake.turn_length] using this
    | growTail =>
      have h1 : s.growTail = s := s.growTail_of_eq h
      have := ih hrest s h
      simpa [Snake.run, Snake.apply, h1] using this
    | move => simp [SnakeOp.isMove] at hop
    | moveDir d => simp [SnakeOp.isMove] at hop

/-- Without a `move()` in between the length grows by at most one. -/
theorem Snake.run_noMove_length_le (ops : List SnakeOp)
    (hops : ∀ op ∈ ops, op.isMove = false) :
    ∀ s : Snake, (s.run ops).length ≤ s.length + 1 := by
  induction ops with
  | nil => intro s; simp [Snake.run]
  | cons op rest ih =>
    intro s
    have hrest : ∀ op ∈ rest, op.isMove = false :=
      fun o ho => hops o (List.mem_cons_of_mem _ ho)
    have hop := hops op (List.mem_cons_self _ _)
    cases op with
    | turn m =>
      have := ih hrest (s.turn m)
      simpa [Snake.run, Snake.apply, Snake.turn_length] using this
    | growTail =>
      have h1 := (Snake.run_noMove_of_eq rest hrest s.growTail s.growTail_tail_eq_back).1
      have h2 := s.growTail_length_le
      show (s.growTail.run rest).length ≤ s.length + 1
      rw [h1]; exact h2
    | move => simp [SnakeOp.isMove] at hop
    | moveDir d => simp [SnakeOp.isMove] at hop

theorem Snake.getLast?_gridBody (s : Snake) : s.getGridBody.getLast? = some s.back := by
  unfold Snake.getGridBody Snake.back
  rw [List.getLast?_cons]
  cases s.body_.getLast? <;> rfl

theorem Snake.move_head_step (s : Snake) (h : s.Room 1) : stepApart s.move.head_ s.head_ := by
  obtain ⟨h1, h2, h3, h4⟩ := h
  simp only [Nat.cast_one] at h1 h2 h3 h4
  cases hd : s.direction_ <;>
    simp only [Snake.move, Vector2i.add, stepApart, hd, wrap32] <;>
    omega

theorem Snake.move_room (s : Snake) (n : Nat) (h : s.Room (n + 1)) : s.move.Room n := by
  obtain ⟨h1, h2, h3, h4⟩ := h
  simp only [Nat.cast_add, Nat.cast_one] at h1 h2 h3 h4
  cases hd : s.direction_ <;>
    simp only [Snake.Room, Snake.move, Vector2i.add, hd, wrap32] <;>
    omega

theorem Snake.room_mono (s : Snake) (n m : Nat) (hnm : m ≤ n) (h : s.Room n) : s.Room m := by
  obtain ⟨h1, h2, h3, h4⟩ := h
  have : (m : Int) ≤ n := by exact_mod_cast hnm
  exact ⟨by omega, by omega, by omega, by omega⟩

theorem Snake.turn_room (s : Snake) (m : Option Direction) (n : Nat) (h : s.Room n) :
    (s.turn m).Room n := by
  unfold Snake.Room at *
  rw [Snake.turn_head]
  exact h

theorem Snake.growTail_room (s : Snake) (n : Nat) (h : s.Room n) : s.growTail.Room n := by
  unfold Snake.growTail
  split_ifs
  · exact h
  · exact h

theorem Snake.init_contiguous (start : Vector2i) (hx : -2147483647 ≤ start.x)
    (h : (Snake.init start).Room 0) : (Snake.init start).Contiguous := by
  refine ⟨List.chain'_singleton _, Or.inr ?_⟩
  obtain ⟨h1, h2, h3, h4⟩ := h
  simp only [Snake.init, Nat.cast_zero] at h1 h2 h3 h4
  simp only [Snake.init, Snake.back, stepApart, Vector2i.sub, List.getLast?_nil, wrap32]
  omega

theorem Snake.turn_contiguous (s : Snake) (m : Option Direction) (h : s.Contiguous) :
    (s.turn m).Contiguous := by
  unfold Snake.Contiguous Snake.getGridBody at *
  rw [Snake.turn_head, Snake.turn_body, Snake.turn_tail, Snake.turn_back]
  exact h

theorem Snake.move_contiguous (s : Snake) (h : s.Contiguous) (hroom : s.Room 1) :
    s.move.Contiguous := by
  obtain ⟨hchain, _⟩ := h
  have hne : s.getGridBody ≠ [] := List.cons_ne_nil _ _
  have hbody : s.move.getGridBody = s.move.head_ :: s.getGridBody.dropLast := rfl
  have htail : s.move.tail_ = s.getGridBody.getLast hne := rfl
  have hsplit : s.getGridBody.dropLast ++ [s.move.tail_] = s.getGridBody := by
    rw [htail]; exact List.dropLast_append_getLast hne
  constructor
  · rw [hbody]
    have hpre : List.Chain' stepApart s.getGridBody.dropLast :=
      List.Chain'.prefix hchain ( List.dropLast_prefix _)
    refine hpre.cons' ?_
    intro y hy
    cases hb : s.body_ with
    | nil => simp [Snake.getGridBody, hb] at hy
    | cons b bs =>
      have : s.getGridBody.dropLast.head? = some s.head_ := by
        simp [Snake.getGridBody, hb]
      rw [this] at hy
      cases hy
      exact s.move_head_step hroom
  · right
    have hback : s.move.getGridBody.getLast? = some s.move.back := s.move.getLast?_gridBody
    rw [hbody] at hback
    cases hd : s.getGridBody.dropLast with
    | nil =>
      rw [hd] at hback hsplit
      simp only [List.getLast?_singleton, Option.some.injEq] at hback
      have hh : s.move.tail_ = s.head_ := by
        have := hsplit
        simp only [Snake.getGridBody, List.nil_append, List.cons.injEq] at this
        exact this.1
      rw [← hback, hh]
      exact s.move_head_step hroom
    | cons d ds =>
      rw [hd, List.getLast?_cons_cons] at hback
      have hchain2 : List.Chain' stepApart (s.getGridBody.dropLast ++ [s.move.tail_]) := by
        rw [hsplit]; exact hchain
      have := (List.chain'_append.mp hchain2).2.2
      rw [hd] at this
      exact this _ hback _ rfl

theorem Snake.growTail_contiguous (s : Snake) (h : s.Contiguous) : s.growTail.Contiguous := by
  refine ⟨?_, Or.inl s.growTail_tail_eq_back⟩
  obtain ⟨hchain, htail⟩ := h
  by_cases hg : s.tail_ = s.back
  · rw [s.growTail_of_eq hg]; exact hchain
  · have hstep : stepApart s.back s.tail_ := htail.resolve_left hg
    have hbody : s.growTail.getGridBody = s.getGridBody ++ [s.tail_] := by
      simp [Snake.growTail, hg, Snake.getGridBody]
    rw [hbody]
    refine hchain.append (List.chain'_singleton _) ?_
    intro x hx y hy
    rw [s.getLast?_gridBody] at hx
    cases hx
    cases hy
    exact hstep

/-- One call keeps `Contiguous` when the head has room for the step of a `move`. -/
theorem Snake.apply_contiguous (s : Snake) (op : SnakeOp) (n : Nat) (h : s.Contiguous)
    (hroom : s.Room (n + (if op.isMove then 1 else 0))) :
    (s.apply op).Contiguous ∧ (s.apply op).Room n := by
  cases op with
  | turn m =>
    simp only [SnakeOp.isMove, Bool.false_eq_true, if_false, Nat.add_zero] at hroom
    exact ⟨s.turn_contiguous m h, s.turn_room m n hroom⟩
  | move =>
    simp only [SnakeOp.isMove, if_true] at hroom
    exact ⟨s.move_contiguous h (s.room_mono _ 1 (by omega) hroom), s.move_room n hroom⟩
  | moveDir d =>
    simp only [SnakeOp.isMove, if_true] at hroom
    have ht := s.turn_room (some d) _ hroom
    exact ⟨(s.turn (some d)).move_contiguous (s.turn_contiguous (some d) h)
      ((s.turn (some d)).room_mono _ 1 (by omega) ht), (s.turn (some d)).move_room n ht⟩
  | growTail =>
    simp only [SnakeOp.isMove, Bool.false_eq_true, if_false, Nat.add_zero] at hroom
    exact ⟨s.growTail_contiguous h, s.growTail_room n hroom⟩

/-- A sequence of calls keeps `Contiguous` when the head has room for all its moves. -/
theorem Snake.run_contiguous (ops : List SnakeOp) :
    ∀ s : Snake, s.Contiguous → s.Room (ops.countP SnakeOp.isMove) →
      (s.run ops).Contiguous := by
  induction ops with
  | nil => exact fun s h _ => h
  | cons op rest ih =>
    intro s h hroom
    have hcount : (op :: rest).countP SnakeOp.isMove
        = rest.countP SnakeOp.isMove + (if op.isMove then 1 else 0) := by
      rw [List.countP_cons]
    rw [hcount] at hroom
    obtain ⟨h1, h2⟩ := s.apply_contiguous op _ h hroom
    exact ih (s.apply op) h1 h2

/-- The contiguity invariant from the constructor on, with room for the moves. -/
theorem Snake.run_init_contiguous (start : Vector2i) (ops : List SnakeOp)
    (hx : -2147483647 ≤ start.x)
    (hroom : (Snake.init start).Room (ops.countP SnakeOp.isMove)) :
    ((Snake.init start).run ops).Contiguous :=
  Snake.run_contiguous ops (Snake.init start)
    (Snake.init_contiguous start hx ((Snake.init start).room_mono _ 0 (Nat.zero_le _) hroom))
    hroom

/-- After a single `turn` the advance does not land on the cell directly behind the head. -/
theorem Snake.turn_move_head_ne_behind (s : Snake) (m : Option Direction) :
    (s.turn m).move.head_ ≠ s.head_.sub s.direction_.unit := by
  intro h
  have hx := congrArg Vector2i.x h
  have hy := congrArg Vector2i.y h
  cases m with
  | none =>
    cases hd : s.direction_ <;>
      simp only [Snake.turn, Snake.move, Vector2i.add, Vector2i.sub, Direction.unit, hd,
        wrap32] at hx hy <;>
      omega
  | some d =>
    cases hd : s.direction_ <;> cases d <;>
      simp only [Snake.turn, Snake.move, Vector2i.add, Vector2i.sub, Direction.unit, hd,
        bannedTransitions_, ne_eq, reduceCtorEq, not_false_eq_true, not_true_eq_false,
        if_true, if_false, wrap32] at hx hy <;>
      omega

/-! ### Full boards and straight runs -/

theorem ReachableInPlay.reachable {width height : Int} {g : Grid}
    (h : ReachableInPlay width height g) : Reachable width height g := by
  induction h with
  | init num g hinit => exact Reachable.init num g hinit
  | tick g move num g1 out _ _ hstep ih => exact Reachable.tick g move num g1 out ih hstep

/-- What the fed snake looks like when the advanced head is inside the walls and on
the apple: the head in front of the old cells, no repeated cell, every cell inside
the walls, one cell more than before, at most `area` cells, and `length()` is that
number of cells. -/
theorem Grid.fed_facts (g : Grid) (move : Option Direction)
    (hap : g.ApplePlaced) (hocc : g.Occupancy)
    (hwall : g.insideWalls (g.advance move).head = true)
    (heat : (g.advance move).can_eat g.apple_ = true) :
    (g.fed move).getGridBody = (g.advance move).head_ :: g.snake_.getGridBody
    ∧ (g.fed move).getGridBody.Nodup
    ∧ (∀ c ∈ (g.fed move).getGridBody, g.insideWalls c = true)
    ∧ ((g.fed move).getGridBody.length : Int) = (g.snake_.getGridBody.length : Int) + 1
    ∧ ((g.fed move).getGridBody.length : Int) ≤ g.area
    ∧ (g.fed move).length = ((g.fed move).getGridBody.length : Int)
    ∧ g.snake_.length = (g.snake_.getGridBody.length : Int) := by
  obtain ⟨hnd, happle⟩ := hap
  have happleHead : (g.advance move).head_ = g.apple_ := by
    simpa [Snake.can_eat] using heat
  have hbody := g.fed_gridBody move hnd heat
  have hinFed : ∀ c ∈ (g.fed move).getGridBody, g.insideWalls c = true := by
    intro c hc
    rw [hbody] at hc
    rcases List.mem_cons.mp hc with h | h
    · rw [h]; exact hwall
    · exact hocc.1 c h
  have hndFed : (g.fed move).getGridBody.Nodup := by
    rw [hbody, happleHead]
    exact List.nodup_cons.mpr ⟨happle, hnd⟩
  have hcount : ((g.fed move).getGridBody.length : Int)
      = (g.snake_.getGridBody.length : Int) + 1 := by
    rw [hbody]; simp
  have hlt := g.area_lt
  have hlen := hocc.2
  exact ⟨hbody, hndFed, hinFed, hcount, by omega, (g.fed move).length_eq (by omega),
    g.snake_.length_eq (by omega)⟩

/-- When `width_ * height_` does not overflow, distinct cells inside the walls, as
many as the area, are all the cells. -/
theorem Grid.mem_of_length_eq_area (g : Grid) (hw : 1 ≤ g.width_) (hh : 1 ≤ g.height_)
    (harea : g.area = g.width_ * g.height_)
    (l : List Vector2i) (hnd : l.Nodup) (hin : ∀ c ∈ l, g.insideWalls c = true)
    (hlen : (l.length : Int) = g.area)
    (c : Vector2i) (hc : g.insideWalls c = true) : c ∈ l := by
  have hsub : l ⊆ (List.range g.area.toNat).map g.cellAt := by
    intro d hd
    exact (g.mem_cells hw hh harea d).mpr ((g.insideWalls_iff d).mp (hin d hd))
  have hle : ((List.range g.area.toNat).map g.cellAt).length ≤ l.length := by
    rw [List.length_map, List.length_range]
    omega
  have hperm := (hnd.subperm hsub).perm_of_length_le hle
  exact hperm.mem_iff.mpr ((g.mem_cells hw hh harea c).mpr ((g.insideWalls_iff c).mp hc))

/-- One tick heading Right along the top row, with nothing in the way. -/
theorem Grid.playMove_right (g : Grid) (j : Nat) (t : Vector2i) (num : Nat)
    (hsnake : g.snake_ = { direction_ := Direction.Right, head_ := ⟨j, 0⟩, tail_ := t, body_ := [] })
    (hw : (j : Int) + 2 ≤ g.width_) (hint : g.width_ ≤ 2147483647) (hh : 1 ≤ g.height_)
    (harea : g.area ≠ 1)
    (happle : g.apple_ ≠ ⟨(j : Int) + 1, 0⟩) :
    g.playMove (some Direction.Right) num =
      some ({ g with snake_ := { direction_ := Direction.Right, head_ := ⟨(j : Int) + 1, 0⟩,
                                 tail_ := ⟨j, 0⟩, body_ := [] } }, "") := by
  have e1 : wrap32 ((j : Int) + 1) = (j : Int) + 1 := wrap32_of_range _ (by omega) (by omega)
  have e0 : wrap32 (0 + 0) = 0 := by decide
  have hadv : g.advance (some Direction.Right) =
      { direction_ := Direction.Right, head_ := ⟨(j : Int) + 1, 0⟩, tail_ := ⟨j, 0⟩,
        body_ := [] } := by
    simp only [Grid.advance, Snake.moveDir, Snake.turn, Snake.move, hsnake, bannedTransitions_,
      Vector2i.add, e1, e0, ne_eq, reduceCtorEq, not_false_eq_true, if_true,
      List.getLast_singleton, List.dropLast_single]
  have hcan : (g.advance (some Direction.Right)).can_eat g.apple_ = false := by
    rw [hadv]
    simp only [Snake.can_eat, decide_eq_false_iff_not]
    exact fun h => happle h.symm
  have hfed : g.fed (some Direction.Right) = g.advance (some Direction.Right) := by
    simp [Grid.fed, hcan]
  have hin : g.insideWalls (g.advance (some Direction.Right)).head = true := by
    rw [hadv, Grid.insideWalls_iff]
    simp only [Snake.head]
    omega
  have hcol : (g.advance (some Direction.Right)).isSelfCollision = false := by
    rw [hadv]; rfl
  have hlen : (g.fed (some Direction.Right)).length ≠ g.area := by
    rw [hfed, hadv]
    have : wrap32 (((([] : List Vector2i).length : Nat) : Int) + 1) = 1 := by decide
    simp only [Snake.length, this]
    exact fun h => harea h.symm
  rw [Grid.playMove_eq, if_neg (by simp [hin]), if_neg (by simp [hcol]), if_neg hlen,
    if_neg (by simp [hcan]), hfed, hadv]

/-- Ticks heading Right along the top row, with nothing in the way. -/
theorem Grid.playMoves_right (nums : List Nat) :
    ∀ (g : Grid) (j : Nat), g.snake_.direction_ = Direction.Right →
      g.snake_.head_ = ⟨j, 0⟩ → g.snake_.body_ = [] →
      (j : Int) + nums.length + 1 ≤ g.width_ → g.width_ ≤ 2147483647 → 1 ≤ g.height_ →
      g.area ≠ 1 →
      (∀ i : Nat, j < i → i ≤ j + nums.length → g.apple_ ≠ ⟨i, 0⟩) →
      ∃ g1 : Grid, g.playMoves (nums.map (fun n => (some Direction.Right, n))) = some g1
        ∧ g1.snake_.head_ = ⟨((j + nums.length : Nat) : Int), 0⟩
        ∧ g1.snake_.body_ = [] ∧ g1.snake_.direction_ = Direction.Right
        ∧ g1.gameStatus_ = g.gameStatus_ ∧ g1.apple_ = g.apple_
        ∧ g1.width_ = g.width_ ∧ g1.height_ = g.height_ := by
  induction nums with
  | nil =>
    intro g j hdir hhead hbody _ _ _ _ _
    exact ⟨g, rfl, by simpa using hhead, hbody, hdir, rfl, rfl, rfl, rfl⟩
  | cons n rest ih =>
    intro g j hdir hhead hbody hw hint hh harea happle
    simp only [List.length_cons, Nat.cast_add, Nat.cast_one] at hw
    have hsnake : g.snake_ =
        ({ direction_ := Direction.Right, head_ := ⟨j, 0⟩, tail_ := g.snake_.tail_,
           body_ := [] } : Snake) := by
      cases hs : g.snake_
      simp_all
    have hstep := g.playMove_right j g.snake_.tail_ n hsnake (by omega) hint hh harea
      (by simpa using happle (j + 1) (by omega) (by simp))
    obtain ⟨g1, hrun, h1, h2, h3, h4, h5, h6, h7⟩ :=
      ih { g with snake_ := { direction_ := Direction.Right, head_ := ⟨(j : Int) + 1, 0⟩,
                              tail_ := ⟨j, 0⟩, body_ := [] } } (j + 1) rfl
        (by simp) rfl (by simp only [Nat.cast_add, Nat.cast_one]; omega) hint hh harea
        (fun i hi1 hi2 => happle i (by omega) (by simp only [List.length_cons]; omega))
    refine ⟨g1, ?_, ?_, h2, h3, h4, h5, h6, h7⟩
    · simp only [List.map_cons, Grid.playMoves, hstep]
      exact hrun
    · rw [h1]
      simp only [List.length_cons]
      congr 2
      omega

theorem neckGrid_reachable : Reachable 5 2 neckGrid :=
  Reachable.tick neckGrid1 none 1 neckGrid ""
    (Reachable.tick neckGrid0 none 0 neckGrid1 ""
      (Reachable.init 0 neckGrid0 (by decide)) (by decide))
    (by decide)

theorem wonGrid_inPlay : ReachableInPlay 2 1 wonGrid :=
  ReachableInPlay.tick lastAppleGrid none 0 wonGrid ""
    (ReachableInPlay.init 0 lastAppleGrid (by decide)) rfl (by decide)

/-! ### The model at the limits of `int` -/

/-- Heading Right at `x = 2147483647`, `move()` gives `x = -2147483648`. -/
theorem Snake.move_at_int_max :
    (Snake.init ⟨2147483647, 0⟩).move.head_ = ⟨-2147483648, 0⟩ := by
  decide

/-- At `start.x = -2147483648` the constructor computes the tail (2147483647, 0). -/
theorem Snake.init_at_int_min :
    (Snake.init ⟨-2147483648, 0⟩).tail_ = ⟨2147483647, 0⟩ := by
  decide

/-- The constructor `Grid(6, 715827883)` computes `width_ * height_` as 2: the only
candidate cell is (1, 0). -/
theorem Grid.init_overflow (num : Nat) :
    Grid.init 6 715827883 num = if num = 0 then some overflowGrid else none := by
  have hav : (Grid.unspawned 6 715827883).available = [⟨1, 0⟩] := by decide
  have hres : ((Grid.unspawned 6 715827883).snakeSetBody.length : Int)
      ≤ (Grid.unspawned 6 715827883).area := by decide
  have hsp : (Grid.unspawned 6 715827883).spawnApple num
      = ([⟨1, 0⟩] : List Vector2i)[num]? := by
    unfold Grid.spawnApple
    rw [if_pos hres, hav]
  rw [Grid.init_eq, hsp]
  cases num with
  | zero => rfl
  | succ n => rfl

/-- The constructor `Grid(65536, 65536)` computes `width_ * height_` as 0 and `reserve`
throws. -/
theorem Grid.init_zero_product (num : Nat) : Grid.init 65536 65536 num = none := by
  have hres : ¬ ((Grid.unspawned 65536 65536).snakeSetBody.length : Int)
      ≤ (Grid.unspawned 65536 65536).area := by decide
  have hsp : (Grid.unspawned 65536 65536).spawnApple num = none := by
    unfold Grid.spawnApple
    rw [if_neg hres]
  rw [Grid.init_eq, hsp]
  rfl

/-! ### The claims -/

/-- C1. `Snake::turn` obeys the no-reverse rule: a request for the opposite of the
current direction leaves the direction as it is, any other request becomes the
direction, no request leaves the direction as it is; head, body and tail are
unchanged in all cases. -/
theorem turn_no_reverse (s : Snake) (r : Direction) (m : Option Direction) :
    (s.turn (some r)).direction_ = (if isOpposite s.direction_ r then s.direction_ else r)
    ∧ (s.turn none).direction_ = s.direction_
    ∧ (s.turn m).head_ = s.head_ ∧ (s.turn m).body_ = s.body_ ∧ (s.turn m).tail_ = s.tail_ := by
  refine ⟨?_, rfl, s.turn_head m, s.turn_body m, s.turn_tail m⟩
  cases hd : s.direction_ <;> cases r <;> simp [Snake.turn, bannedTransitions_, isOpposite, hd]

/-- C2. Apple placement invariant: in every state reached from `Grid(width, height)`
by `playMove` ticks (any requested directions, any draws) whose status is
`InProgress`, the apple is not equal to any element of `getGridBody()`. The bounds
`width >= 1`, `height >= 1`, `width * height >= 2` of the claim are not needed. -/
theorem apple_placement (width height : Int) (g : Grid) (hreach : Reachable width height g)
    (hs : g.gameStatus_ = GameStatus.InProgress) :
    g.apple_ ∉ g.snake_.getGridBody :=
  (hreach.applePlaced hs).2

/-- Witness of C2: `coilGrid1`, reached from `Grid(3, 3)` by one tick that eats. -/
theorem apple_placement_witness :
    Reachable 3 3 coilGrid1 ∧ coilGrid1.gameStatus_ = GameStatus.InProgress
    ∧ coilGrid1.apple_ ∉ coilGrid1.snake_.getGridBody :=
  ⟨coilGrid1_reachable, rfl, apple_placement 3 3 coilGrid1 coilGrid1_reachable rfl⟩

/-- C3. Growth: in every `InProgress` state reached from `Grid(width, height)` by
`playMove` ticks, when the food check of the next tick succeeds, the guard of
`growTail` holds (the cached tail differs from the back of the body), every result
of the tick has `length()` equal to `length()` before plus one, and the tick does
produce a result: it ends in `Win` (the length equals `area`, the `int` value of
`width_ * height_`), or the vector of available cells is not empty and every index
`num` below its size gives a result. -/
theorem growth (width height : Int) (g : Grid) (hreach : Reachable width height g)
    (hs : g.gameStatus_ = GameStatus.InProgress) (move : Option Direction)
    (hfood : g.foodCheckSucceeds move = true) :
    (g.advance move).tail_ ≠ (g.advance move).back
    ∧ (∀ (num : Nat) (r : Grid × String), g.playMove move num = some r →
        r.1.snake_.length = g.snake_.length + 1)
    ∧ ((g.fed move).length = g.area ∨ (g.spawnGrid move).available ≠ [])
    ∧ (∀ num : Nat,
        (g.fed move).length = g.area ∨ num < (g.spawnGrid move).available.length →
        (g.playMove move num).isSome = true) := by
  obtain ⟨hnd, happle⟩ := hreach.applePlaced hs
  have hguard := g.advance_tail_ne_back move hnd
  unfold Grid.foodCheckSucceeds at hfood
  simp only [Bool.and_eq_true, Bool.not_eq_true'] at hfood
  obtain ⟨⟨hwall, hcol⟩, heat⟩ := hfood
  have hwall' := (g.insideWalls_iff _).mp hwall
  have hw : 1 ≤ g.width_ := by omega
  have hh : 1 ≤ g.height_ := by omega
  obtain ⟨hgw, hgh⟩ := hreach.dims
  have hocc := hreach.occupancy (hgw ▸ hw) (hgh ▸ hh) hs
  obtain ⟨_, _, _, hcount, hle, hlenF, hlenG⟩ :=
    g.fed_facts move (hreach.applePlaced hs) hocc hwall heat
  have hlenFed : (g.fed move).length = g.snake_.length + 1 := by
    rw [hlenF, hlenG, hcount]
  have hplay : ∀ num : Nat, g.playMove move num =
      if (g.fed move).length = g.area then
        some ({ g with snake_ := g.fed move, gameStatus_ := GameStatus.Win }, "")
      else
        ((g.spawnGrid move).spawnApple num).map
          (fun a => ({ g with snake_ := g.fed move, apple_ := a }, "")) := by
    intro num
    rw [Grid.playMove_eq, if_neg (by simp [hwall]), if_neg (by simp [hcol])]
    split_ifs <;> rfl
  have hlt : (g.fed move).length ≠ g.area →
      ((g.spawnGrid move).snake_.getGridBody.length : Int) < (g.spawnGrid move).area := by
    intro h3
    rw [hlenF] at h3
    exact lt_of_le_of_ne hle h3
  refine ⟨hguard, ?_, ?_, ?_⟩
  · intro num r hr
    rw [hplay] at hr
    split_ifs at hr with h3
    · cases hr; exact hlenFed
    · rcases hsp : (g.spawnGrid move).spawnApple num with _ | a
      · simp [hsp] at hr
      · simp only [hsp, Option.map_some', Option.some.injEq] at hr
        subst hr
        exact hlenFed
  · by_cases h3 : (g.fed move).length = g.area
    · exact Or.inl h3
    · exact Or.inr ((g.spawnGrid move).available_ne_nil hw (hlt h3))
  · intro num hor
    rw [hplay]
    split_ifs with h3
    · rfl
    · have hnum : num < (g.spawnGrid move).available.length := hor.resolve_left h3
      have hres := (g.spawnGrid move).reserve_ok (hlt h3)
      rw [(g.spawnGrid move).spawnApple_eq num hres, List.getElem?_eq_getElem hnum]
      rfl

/-- Witness of C3: in `coilGrid2`, reached from `Grid(3, 3)` by two ticks, the tick
`playMove(Left)` eats the apple at (0, 1) and the length goes from 3 to 4. -/
theorem growth_witness :
    coilGrid2.foodCheckSucceeds (some Direction.Left) = true
    ∧ coilGrid.snake_.length = coilGrid2.snake_.length + 1
    ∧ (coilGrid2.playMove (some Direction.Left) 4).isSome = true :=
  ⟨by decide,
   (growth 3 3 coilGrid2 coilGrid2_reachable rfl (some Direction.Left) (by decide)).2.1 4
      (coilGrid, "") (by decide),
   (growth 3 3 coilGrid2 coilGrid2_reachable rfl (some Direction.Left) (by decide)).2.2.2 4
      (Or.inr (by decide))⟩

/-- C4. Length conservation: `length()` after `move()` and after `move(Direction)`
equals `length()` before, for every snake; and a `playMove` tick in which the food
check does not succeed (wall loss, self-collision loss, or head not on the apple)
returns a state with `length()` unchanged. -/
theorem length_conservation (s : Snake) (g : Grid) (move : Option Direction) (num : Nat) :
    s.move.length = s.length
    ∧ (∀ d : Direction, (s.moveDir d).length = s.length)
    ∧ (g.foodCheckSucceeds move = false →
        ∃ r : Grid × String, g.playMove move num = some r ∧
          r.1.snake_.length = g.snake_.length) := by
  refine ⟨Snake.move_length s, ?_, ?_⟩
  · intro d
    show ((s.turn (some d)).move).length = _
    rw [Snake.move_length, Snake.turn_length]
  · intro hfood
    rw [Grid.playMove_eq]
    have hadv := g.advance_length move
    unfold Grid.foodCheckSucceeds at hfood
    split_ifs with h1 h2 h3 h4
    · exact ⟨_, rfl, hadv⟩
    · exact ⟨_, rfl, hadv⟩
    · have hc : (g.advance move).can_eat g.apple_ = false := by simpa [h1, h2] using hfood
      refine ⟨_, rfl, ?_⟩
      simpa [Grid.fed, hc] using hadv
    · have hc : (g.advance move).can_eat g.apple_ = false := by simpa [h1, h2] using hfood
      simp [hc] at h4
    · have hc : (g.advance move).can_eat g.apple_ = false := by simpa [h1, h2] using hfood
      refine ⟨_, rfl, ?_⟩
      simpa [Grid.fed, hc] using hadv

/-- Witness of C4: on the 5 by 2 wall grid the tick `playMove(Right)` ends at the
wall, the food check does not succeed, and the length stays 1. -/
theorem length_conservation_witness :
    wallGrid.foodCheckSucceeds (some Direction.Right) = false
    ∧ (∃ r : Grid × String, wallGrid.playMove (some Direction.Right) 0 = some r ∧
        r.1.snake_.length = wallGrid.snake_.length) :=
  ⟨by decide,
    (length_conservation wallGrid.snake_ wallGrid (some Direction.Right) 0).2.2 (by decide)⟩

/-- C5. Wall boundary: when the advanced head has `x < 0`, `x >= width`, `y < 0` or
`y >= height`, `playMove` ends with status `Loss`, the apple unchanged and the snake
advanced but not grown (same length as before the tick); when the advanced head
is inside `[0, width) x [0, height)`, the tick is not ended by the wall check (it
does not write the text of the wall branch). -/
theorem wall_boundary (g : Grid) (move : Option Direction) (num : Nat) :
    (((g.advance move).head.x < 0 ∨ g.width_ ≤ (g.advance move).head.x ∨
        (g.advance move).head.y < 0 ∨ g.height_ ≤ (g.advance move).head.y) →
      g.playMove move num =
          some ({ g with snake_ := g.advance move, gameStatus_ := GameStatus.Loss },
            "RAN INTO A WALL")
        ∧ (g.advance move).length = g.snake_.length)
    ∧ ((0 ≤ (g.advance move).head.x ∧ (g.advance move).head.x < g.width_ ∧
        0 ≤ (g.advance move).head.y ∧ (g.advance move).head.y < g.height_) →
      (g.playMove move num).map Prod.snd ≠ some "RAN INTO A WALL") := by
  constructor
  · intro h
    have hw := (g.insideWalls_false_iff _).mpr h
    rw [Grid.playMove_eq, if_pos hw]
    exact ⟨rfl, g.advance_length move⟩
  · intro h
    have hw := (g.insideWalls_iff _).mpr h
    rw [Grid.playMove_eq, if_neg (by simp [hw])]
    split_ifs with h2 h3 h4
    · simp
    · simp
    · rcases hs : Grid.spawnApple { g with snake_ := g.fed move } num with _ | a <;> simp
    · simp

/-- Witness of C5, the scenario of the spec: 5 by 2 grid, head (4, 0) facing Right;
`playMove(Right)` gives head (5, 0) and status `Loss`, the apple where it was. -/
theorem wall_boundary_witness :
    wallGrid.width_ ≤ (wallGrid.advance (some Direction.Right)).head.x
    ∧ wallGrid.playMove (some Direction.Right) 0 =
        some ({ width_ := 5, height_ := 2,
                snake_ := { direction_ := Direction.Right, head_ := ⟨5, 0⟩, tail_ := ⟨4, 0⟩,
                            body_ := [] },
                apple_ := ⟨0, 1⟩, gameStatus_ := GameStatus.Loss }, "RAN INTO A WALL") :=
  ⟨by decide, ((wall_boundary wallGrid (some Direction.Right) 0).1 (by decide)).1⟩

/-- Counterexample to C6 as stated: in the reachable state `coilGrid` the request Up
takes the head to (0, 0), a cell inside the grid that holds a body segment (the
tail) before the tick, and `playMove` leaves the status `InProgress`. -/
theorem self_collision_counterexample :
    Reachable 3 3 coilGrid
    ∧ coilGrid.insideWalls (coilGrid.advance (some Direction.Up)).head = true
    ∧ (coilGrid.advance (some Direction.Up)).head ∈ coilGrid.snake_.body_
    ∧ (coilGrid.playMove (some Direction.Up) 0).map (fun r => r.1.gameStatus_)
        = some GameStatus.InProgress := by
  exact ⟨coilGrid_reachable, by decide, by decide, by decide⟩

/-- C6, amended. Self-collision: when the next head position lies inside the grid
and coincides with a body segment of the state before the tick other than the last
one (an element of `body_` without its final element), `playMove` sets the status
to `Loss`. -/
theorem self_collision_loss (g : Grid) (move : Option Direction) (num : Nat)
    (hin : 0 ≤ (g.advance move).head.x ∧ (g.advance move).head.x < g.width_ ∧
        0 ≤ (g.advance move).head.y ∧ (g.advance move).head.y < g.height_)
    (hmem : (g.advance move).head ∈ g.snake_.body_.dropLast) :
    g.playMove move num =
      some ({ g with snake_ := g.advance move, gameStatus_ := GameStatus.Loss },
        "RAN INTO MYSELF") := by
  have hw := (g.insideWalls_iff _).mpr hin
  have hc : (g.advance move).isSelfCollision = true := by
    simp only [Snake.isSelfCollision, List.any_eq_true, decide_eq_true_eq, g.advance_body]
    refine ⟨(g.advance move).head, ?_, rfl⟩
    cases hbody : g.snake_.body_ with
    | nil => simp [hbody] at hmem
    | cons b bs =>
      rw [hbody] at hmem
      rw [List.dropLast_cons_of_ne_nil (List.cons_ne_nil b bs)]
      exact List.mem_cons_of_mem _ hmem
  rw [Grid.playMove_eq, if_neg (by simp [hw]), if_pos hc]

/-- Witness of C6 amended: in `biteGrid` the request Left takes the head to (0, 1),
the third of the four body segments, and the tick ends with status `Loss`. -/
theorem self_collision_loss_witness :
    (biteGrid.advance (some Direction.Left)).head ∈ biteGrid.snake_.body_.dropLast
    ∧ (biteGrid.playMove (some Direction.Left) 0).map (fun r => r.1.gameStatus_)
        = some GameStatus.Loss :=
  ⟨by decide, by
    rw [self_collision_loss biteGrid (some Direction.Left) 0 (by decide) (by decide)]
    rfl⟩

/-- C7. Win condition: when the tick passes the wall and self-collision checks and
`length()` equals `width * height` after the food check (and growth, if the apple
was eaten), `playMove` sets the status to `Win`; the apple is the one from before the
tick and `spawnApple` is not called (the result does not depend on `num`). -/
theorem win_condition (g : Grid) (move : Option Direction) (num : Nat)
    (hin : 0 ≤ (g.advance move).head.x ∧ (g.advance move).head.x < g.width_ ∧
        0 ≤ (g.advance move).head.y ∧ (g.advance move).head.y < g.height_)
    (hcol : (g.advance move).isSelfCollision = false)
    (hlen : (g.fed move).length = g.width_ * g.height_) :
    g.playMove move num =
      some ({ g with snake_ := g.fed move, gameStatus_ := GameStatus.Win }, "") := by
  have hw := (g.insideWalls_iff _).mpr hin
  rw [Grid.playMove_eq, if_neg (by simp [hw]), if_neg (by simp [hcol]),
    if_pos (g.length_eq_area _ hlen)]

/-- Witness of C7: on the 2 by 1 grid the snake eats the apple at (1, 0), reaches
length 2 and wins; the apple stays at (1, 0). -/
theorem win_condition_witness :
    (lastAppleGrid.fed none).length = lastAppleGrid.width_ * lastAppleGrid.height_
    ∧ lastAppleGrid.playMove none 0 =
      some ({ width_ := 2, height_ := 1,
              snake_ := { direction_ := Direction.Right, head_ := ⟨1, 0⟩, tail_ := ⟨0, 0⟩,
                          body_ := [⟨0, 0⟩] },
              apple_ := ⟨1, 0⟩, gameStatus_ := GameStatus.Win }, "") :=
  ⟨by decide, win_condition lastAppleGrid none 0 (by decide) (by decide) (by decide)⟩

/-- Counterexample to C8 as stated: `lossGrid2` is reached from `Grid(1, 2)` by two
ticks and has status `Loss`; one more `playMove(Left)` brings the head back onto the
apple at (0, 1) and sets the status to `Win`. -/
theorem status_terminal_counterexample :
    Reachable 1 2 lossGrid2
    ∧ lossGrid2.gameStatus_ = GameStatus.Loss
    ∧ (lossGrid2.playMove (some Direction.Left) 0).map (fun r => r.1.gameStatus_)
        = some GameStatus.Win := by
  exact ⟨lossGrid2_reachable, by decide, by decide⟩

/-- C8, amended. `playMove` has no guard on the status, and a tick on a state whose
status is `Win` or `Loss` ends with status `Win` or `Loss`, never `InProgress`; the
loop of `main` does not call `playMove` on such a state, so in a run of `main` the
status stays what it was. -/
theorem status_stays_terminal (g : Grid) (move : Option Direction) (num : Nat)
    (w : World) (frames : List Frame) :
    (g.gameStatus_ ≠ GameStatus.InProgress →
      ∀ r : Grid × String, g.playMove move num = some r →
        r.1.gameStatus_ ≠ GameStatus.InProgress)
    ∧ (w.grid.gameStatus_ ≠ GameStatus.InProgress →
      (mainLoop w frames).map (fun w1 => w1.grid.gameStatus_) = some w.grid.gameStatus_) := by
  constructor
  · intro h r hr
    rcases Grid.playMove_status g move num r hr with h1 | h1 | h1
    · rw [h1]; exact h
    · rw [h1]; decide
    · rw [h1]; decide
  · intro h
    rw [mainLoop_terminal w frames h]
    rfl

/-- Witness of C8 amended, at `lossGrid1` and at the world that holds it. -/
theorem status_stays_terminal_witness :
    lossGrid1.gameStatus_ ≠ GameStatus.InProgress
    ∧ lossGrid2.gameStatus_ ≠ GameStatus.InProgress
    ∧ (mainLoop lossWorld [idleFrame, idleFrame]).map (fun w1 => w1.grid.gameStatus_)
        = some GameStatus.Loss :=
  ⟨by decide,
   (status_stays_terminal lossGrid1 (some Direction.Down) 0 lossWorld
      [idleFrame, idleFrame]).1 (by decide) (lossGrid2, "RAN INTO A WALL") (by decide),
   (status_stays_terminal lossGrid1 (some Direction.Down) 0 lossWorld
      [idleFrame, idleFrame]).2 (by decide)⟩

/-- Counterexample to C9 as stated: `lossGrid1` has status `Loss` and `playMove(Down)`
returns a different state, the head moved from (1, 0) to (1, 1). -/
theorem no_mutation_counterexample :
    lossGrid1.gameStatus_ ≠ GameStatus.InProgress
    ∧ (lossGrid1.playMove (some Direction.Down) 0).map (fun r => r.1) = some lossGrid2
    ∧ lossGrid2 ≠ lossGrid1 := by
  decide

/-- C9, amended. `playMove` itself advances the snake whatever the status is; the
loop of `main` runs its body (`turn`, `playMove`) only while the status is
`InProgress`, so once the status is not `InProgress` the loop leaves the whole state
(snake head, body, tail, direction, apple, status) unchanged, whatever the frames
that follow. -/
theorem no_mutation_after_terminal (w : World) (frames : List Frame)
    (h : w.grid.gameStatus_ ≠ GameStatus.InProgress) :
    mainLoop w frames = some w :=
  mainLoop_terminal w frames h

/-- Witness of C9 amended: the loop run on `lossWorld` with two frames returns it. -/
theorem no_mutation_after_terminal_witness :
    lossWorld.grid.gameStatus_ ≠ GameStatus.InProgress
    ∧ mainLoop lossWorld [idleFrame, idleFrame] = some lossWorld :=
  ⟨by decide, no_mutation_after_terminal lossWorld [idleFrame, idleFrame] (by decide)⟩

/-- Counterexample to C10 as stated, at two inputs. On the 2 by 1 grid `strayGrid` the
snake has three distinct cells, the loop of `spawnApple` would list the two free
cells (0, 0) and (1, 0), but `reserve` is called with `2 - 3` computed in
`std::size_t` and throws, so no index makes `spawnApple` return a cell. On
`overflowGrid`, 6 by 715827883, the `int` product `width_ * height_` is 2, the loop
visits (0, 0) and (1, 0) only, and the free cell (0, 1) is not in the list. -/
theorem spawnApple_counterexample :
    1 ≤ strayGrid.width_ ∧ 1 ≤ strayGrid.height_
    ∧ strayGrid.available = [⟨0, 0⟩, ⟨1, 0⟩]
    ∧ (∀ num : Nat, strayGrid.spawnApple num = none)
    ∧ overflowGrid.area = 2
    ∧ overflowGrid.available = [⟨1, 0⟩]
    ∧ overflowGrid.insideWalls ⟨0, 1⟩ = true
    ∧ (⟨0, 1⟩ : Vector2i) ∉ overflowGrid.snake_.getGridBody := by
  refine ⟨by decide, by decide, by decide, ?_, by decide, by decide, by decide, by decide⟩
  intro num
  unfold Grid.spawnApple
  rw [if_neg (by decide)]

/-- C10, amended. For `width >= 1` and `height >= 1` and every snake: the vector
`available` is in row-major order and every value `spawnApple` returns is a cell of
`[0, width) x [0, height)` that is not in `getGridBody()`. When `width * height` does
not overflow `int`, `available` holds each such cell exactly once and nothing else;
when moreover the snake has at most `width * height` distinct cells (so that
`reserve` does not throw), every index below `available.size()` gives a result, every
free cell is returned for exactly one index, and so a uniform index gives a uniform
free cell. -/
theorem spawnApple_free_cells (g : Grid) (hw : 1 ≤ g.width_) (hh : 1 ≤ g.height_) :
    g.available.Pairwise rowMajorLt
    ∧ (∀ (num : Nat) (a : Vector2i), g.spawnApple num = some a →
        (0 ≤ a.x ∧ a.x < g.width_ ∧ 0 ≤ a.y ∧ a.y < g.height_) ∧ a ∉ g.snake_.getGridBody)
    ∧ (g.width_ * g.height_ ≤ 2147483647 →
        (∀ c : Vector2i, g.available.count c =
          if (0 ≤ c.x ∧ c.x < g.width_ ∧ 0 ≤ c.y ∧ c.y < g.height_) ∧
            c ∉ g.snake_.getGridBody
          then 1 else 0)
        ∧ ((g.snake_.getGridBody.dedup.length : Int) ≤ g.width_ * g.height_ →
          (∀ num : Nat, num < g.available.length → (g.spawnApple num).isSome = true)
          ∧ ∀ c : Vector2i,
            (0 ≤ c.x ∧ c.x < g.width_ ∧ 0 ≤ c.y ∧ c.y < g.height_) ∧
              c ∉ g.snake_.getGridBody →
            (∃! num : Nat, g.spawnApple num = some c)
            ∧ ((Finset.range g.available.length).filter
                  (fun num => g.spawnApple num = some c)).card = 1)) := by
  refine ⟨g.available_pairwise hw, ?_, ?_⟩
  · intro num a h
    have hmem := g.spawnApple_mem num a h
    refine ⟨?_, g.available_not_mem a hmem⟩
    unfold Grid.available at hmem
    exact g.inside_of_mem_cells hw hh a (List.mem_filter.mp hmem).1
  intro hprod
  have harea := g.area_eq hw hh hprod
  refine ⟨?_, ?_⟩
  · intro c
    split_ifs with hc
    · exact List.count_eq_one_of_mem (g.available_nodup hw)
        ((g.mem_available hw hh harea c).mpr hc)
    · exact List.count_eq_zero_of_not_mem
        (fun hm => hc ((g.mem_available hw hh harea c).mp hm))
  · intro hres
    have hres' : (g.snakeSetBody.length : Int) ≤ g.area := by
      rw [harea]; exact hres
    have hsp : ∀ num, g.spawnApple num = g.available[num]? := fun num =>
      g.spawnApple_eq num hres'
    refine ⟨?_, ?_⟩
    · intro num hnum
      rw [hsp, List.getElem?_eq_getElem hnum]
      rfl
    · intro c hc
      have hmem := (g.mem_available hw hh harea c).mpr hc
      obtain ⟨n, hn⟩ := List.mem_iff_getElem?.mp hmem
      have huniq : ∀ m : Nat, g.available[m]? = some c → m = n := by
        intro m hm
        obtain ⟨hm1, hm2⟩ := List.getElem?_eq_some.mp hm
        obtain ⟨hn1, hn2⟩ := List.getElem?_eq_some.mp hn
        exact ((g.available_nodup hw).getElem_inj_iff).mp (hm2.trans hn2.symm)
      refine ⟨⟨n, (hsp n).trans hn, fun m hm => huniq m ((hsp m).symm.trans hm)⟩, ?_⟩
      have hset : (Finset.range g.available.length).filter
          (fun num => g.spawnApple num = some c) = {n} := by
        ext m
        simp only [Finset.mem_filter, Finset.mem_range, Finset.mem_singleton, hsp]
        constructor
        · rintro ⟨_, hm⟩
          exact huniq m hm
        · rintro rfl
          exact ⟨(List.getElem?_eq_some.mp hn).1, hn⟩
      rw [hset, Finset.card_singleton]

/-- Witness of C10 amended: on `coilGrid` the free cell (2, 2) has exactly one index. -/
theorem spawnApple_free_cells_witness :
    (∃! num : Nat, coilGrid.spawnApple num = some ⟨2, 2⟩)
    ∧ ((Finset.range coilGrid.available.length).filter
          (fun num => coilGrid.spawnApple num = some ⟨2, 2⟩)).card = 1 :=
  (((spawnApple_free_cells coilGrid (by decide) (by decide)).2.2 (by decide)).2
    (by decide)).2 ⟨2, 2⟩ (by decide)

/-- C11. `spawnApple` is never invoked by `playMove` with zero available cells: in
every `InProgress` state reached from `Grid(width, height)` by `playMove` ticks,
when the tick reaches the respawn step (food check passed, `length()` different from
`area`, the `int` value of `width_ * height_`), `reserve` does not throw, the vector of
available cells is not empty, and every index `num` in `0 .. available.size() - 1`
is in range: `available[num]` is the new apple and the tick returns. The bounds on
`width` and `height` of the claim are not needed. -/
theorem spawn_never_empty (width height : Int) (g : Grid) (hreach : Reachable width height g)
    (hs : g.gameStatus_ = GameStatus.InProgress) (move : Option Direction)
    (hfood : g.foodCheckSucceeds move = true)
    (hnowin : (g.fed move).length ≠ g.area) :
    (g.spawnGrid move).available ≠ []
    ∧ ((g.spawnGrid move).snakeSetBody.length : Int) ≤ g.area
    ∧ g.area ≤ g.width_ * g.height_
    ∧ (∀ num : Nat, num ≤ (g.spawnGrid move).available.length - 1 →
        ∃ a : Vector2i, (g.spawnGrid move).available[num]? = some a
          ∧ (g.spawnGrid move).spawnApple num = some a
          ∧ g.playMove move num = some ({ g with snake_ := g.fed move, apple_ := a }, "")) := by
  unfold Grid.foodCheckSucceeds at hfood
  simp only [Bool.and_eq_true, Bool.not_eq_true'] at hfood
  obtain ⟨⟨hwall, hcol⟩, heat⟩ := hfood
  have hwall' := (g.insideWalls_iff _).mp hwall
  have hw : 1 ≤ g.width_ := by omega
  have hh : 1 ≤ g.height_ := by omega
  obtain ⟨hgw, hgh⟩ := hreach.dims
  have hocc := hreach.occupancy (hgw ▸ hw) (hgh ▸ hh) hs
  obtain ⟨_, _, _, _, hle, hlenF, _⟩ :=
    g.fed_facts move (hreach.applePlaced hs) hocc hwall heat
  have hlt : ((g.spawnGrid move).snake_.getGridBody.length : Int) < (g.spawnGrid move).area := by
    rw [hlenF] at hnowin
    exact lt_of_le_of_ne hle hnowin
  have hne := (g.spawnGrid move).available_ne_nil hw hlt
  have hres := (g.spawnGrid move).reserve_ok hlt
  refine ⟨hne, hres, g.area_le hw hh, ?_⟩
  intro num hnum
  have hpos : 0 < (g.spawnGrid move).available.length := List.length_pos.mpr hne
  have hnum' : num < (g.spawnGrid move).available.length := by omega
  have hget := List.getElem?_eq_getElem hnum'
  have hsp : (g.spawnGrid move).spawnApple num = some ((g.spawnGrid move).available[num]) := by
    rw [(g.spawnGrid move).spawnApple_eq num hres, hget]
  refine ⟨_, hget, hsp, ?_⟩
  rw [Grid.playMove_eq, if_neg (by simp [hwall]), if_neg (by simp [hcol]), if_neg hnowin,
    if_pos heat]
  change ((g.spawnGrid move).spawnApple num).map _ = _
  rw [hsp]
  rfl

/-- Witness of C11: in `coilGrid2` the tick `playMove(Left)` eats at (0, 1) with the
snake at length 4 of 9; five cells are available and the draw 4 gives `coilGrid`. -/
theorem spawn_never_empty_witness :
    (coilGrid2.spawnGrid (some Direction.Left)).available.length = 5
    ∧ (∃ a : Vector2i, (coilGrid2.spawnGrid (some Direction.Left)).available[4]? = some a
        ∧ (coilGrid2.spawnGrid (some Direction.Left)).spawnApple 4 = some a
        ∧ coilGrid2.playMove (some Direction.Left) 4 =
            some ({ coilGrid2 with snake_ := coilGrid2.fed (some Direction.Left), apple_ := a },
              "")) :=
  ⟨by decide,
    (spawn_never_empty 3 3 coilGrid2 coilGrid2_reachable rfl (some Direction.Left)
      (by decide) (by decide)).2.2.2 4 (by decide)⟩

/-- C12. End-to-end straight run: from the state built by `Grid(width, height)` (head
(0, 0), empty body, facing Right), with `height >= 1` and `k <= width - 1`, when the
apple is at none of the cells (1, 0) .. (k, 0), `k` calls `playMove(Right)` return a
state with head (k, 0), `length()` 1, status `InProgress` and the apple unchanged.
The bounds `width >= 2` and `1 <= k` of the claim are not needed; `width` is an `int`,
so it is at most 2147483647. -/
theorem straight_run (width height : Int) (hint : width ≤ 2147483647) (hh : 1 ≤ height)
    (k : Nat) (hk2 : (k : Int) ≤ width - 1)
    (num0 : Nat) (g0 : Grid) (hinit : Grid.init width height num0 = some g0)
    (happle : ∀ i : Nat, 1 ≤ i → i ≤ k → g0.apple_ ≠ ⟨i, 0⟩)
    (nums : List Nat) (hlen : nums.length = k) :
    g0.snake_ = Snake.init ⟨0, 0⟩
    ∧ ∃ g1 : Grid, g0.playMoves (nums.map (fun n => (some Direction.Right, n))) = some g1
        ∧ g1.snake_.head_ = ⟨k, 0⟩ ∧ g1.snake_.length = 1
        ∧ g1.gameStatus_ = GameStatus.InProgress ∧ g1.apple_ = g0.apple_ := by
  have harea := Grid.init_area width height num0 g0 hinit
  rw [Grid.init_eq] at hinit
  simp only [Option.map_eq_some'] at hinit
  obtain ⟨a, _, rfl⟩ := hinit
  refine ⟨rfl, ?_⟩
  have harea1 : Grid.area { Grid.unspawned width height with apple_ := a } ≠ 1 := by
    simp only [Grid.area] at harea ⊢
    exact fun h => absurd (h ▸ harea) (by decide)
  obtain ⟨g1, hrun, h1, h2, _, h4, h5, _, _⟩ :=
    Grid.playMoves_right nums { Grid.unspawned width height with apple_ := a } 0 rfl rfl rfl
      (by simp only [hlen, Grid.unspawned]; push_cast; omega) hint hh harea1
      (fun i hi1 hi2 => happle i (by omega) (by omega))
  refine ⟨g1, hrun, ?_, ?_, h4, h5⟩
  · rw [h1, hlen]; simp
  · simp only [Snake.length, h2]
    decide

/-- Witness of C12, the scenario of the spec: on the 5 by 2 grid with the apple at
(4, 0), three moves Right take the head to (1, 0), (2, 0), (3, 0); the length stays
1 and the status `InProgress`. -/
theorem straight_run_witness :
    Grid.init 5 2 3 = some straightGrid
    ∧ (straightGrid.playMoves [(some Direction.Right, 0)]).map (fun g => g.snake_.head_)
        = some ⟨1, 0⟩
    ∧ (straightGrid.playMoves [(some Direction.Right, 0), (some Direction.Right, 0)]).map
        (fun g => g.snake_.head_) = some ⟨2, 0⟩
    ∧ ∃ g1 : Grid,
        straightGrid.playMoves ([0, 0, 0].map (fun n => (some Direction.Right, n))) = some g1
        ∧ g1.snake_.head_ = ⟨3, 0⟩ ∧ g1.snake_.length = 1
        ∧ g1.gameStatus_ = GameStatus.InProgress ∧ g1.apple_ = straightGrid.apple_ :=
  ⟨by decide, by decide, by decide,
    (straight_run 5 2 (by norm_num) (by decide) 3 (by decide) 3 straightGrid (by decide)
      (fun i _ h2 h => by
        have hx := congrArg Vector2i.x h
        simp only [straightGrid] at hx
        omega)
      [0, 0, 0] rfl).2⟩

/-- Counterexample to C13 as stated: `Grid(6, 715827883)` has `width * height = 2^32 + 2`,
which `playMove` computes in `int` as 2. The constructor returns `overflowGrid`; one tick
heading Right eats the apple at (1, 0), `length()` is 2 and the status becomes `Win`,
while the cell (0, 1) of the grid is not on the snake. -/
theorem win_full_board_counterexample :
    (2 : Int) ≤ overflowGrid.width_ * overflowGrid.height_
    ∧ ReachableInPlay 6 715827883 overflowWonGrid
    ∧ overflowWonGrid.gameStatus_ = GameStatus.Win
    ∧ overflowWonGrid.snake_.getGridBody = [⟨1, 0⟩, ⟨0, 0⟩]
    ∧ overflowWonGrid.insideWalls ⟨0, 1⟩ = true
    ∧ (⟨0, 1⟩ : Vector2i) ∉ overflowWonGrid.snake_.getGridBody :=
  ⟨by decide,
    ReachableInPlay.tick overflowGrid none 0 overflowWonGrid ""
      (ReachableInPlay.init 0 overflowGrid (by decide)) rfl (by decide),
    rfl, rfl, by decide, by decide⟩

/-- C13, amended. Win means the board is full when `width * height` does not overflow
`int`: for `width * height <= 2147483647`, in every state with status `Win` reached
from `Grid(width, height)` by `playMove` ticks through `InProgress` states, the cells
of `getGridBody()` are pairwise distinct, all lie inside `[0, width) x [0, height)`,
and are exactly all `width * height` cells of the grid. -/
theorem win_full_board (width height : Int) (hprod : width * height ≤ 2147483647)
    (g : Grid) (hreach : ReachableInPlay width height g)
    (hwin : g.gameStatus_ = GameStatus.Win) :
    g.snake_.getGridBody.Nodup
    ∧ (∀ c ∈ g.snake_.getGridBody, 0 ≤ c.x ∧ c.x < width ∧ 0 ≤ c.y ∧ c.y < height)
    ∧ (∀ c : Vector2i, 0 ≤ c.x ∧ c.x < width ∧ 0 ≤ c.y ∧ c.y < height →
        c ∈ g.snake_.getGridBody)
    ∧ (g.snake_.getGridBody.length : Int) = width * height := by
  cases hreach with
  | init num g hinit =>
    rw [Grid.init_eq] at hinit
    simp only [Option.map_eq_some'] at hinit
    obtain ⟨a, _, rfl⟩ := hinit
    cases hwin
  | tick g0 move num g1 out hprev hs hstep =>
    have hr0 := hprev.reachable
    obtain ⟨hgw, hgh⟩ := hr0.dims
    have hap := hr0.applePlaced hs
    rw [Grid.playMove_eq] at hstep
    split_ifs at hstep with h1 h2 h3 h4
    · cases hstep; cases hwin
    · cases hstep; cases hwin
    · cases hstep
      have hwall : g0.insideWalls (g0.advance move).head = true := by simpa using h1
      have hwall' := (g0.insideWalls_iff _).mp hwall
      have hw : 1 ≤ g0.width_ := by omega
      have hh : 1 ≤ g0.height_ := by omega
      have hocc := hr0.occupancy (hgw ▸ hw) (hgh ▸ hh) hs
      have hlt := g0.area_lt
      have heat : (g0.advance move).can_eat g0.apple_ = true := by
        by_contra hne
        have hfed : g0.fed move = g0.advance move := by simp [Grid.fed, hne]
        have hl := g0.snake_.length_eq (by have := hocc.2; omega)
        rw [hfed, g0.advance_length, hl] at h3
        exact absurd h3 (ne_of_lt hocc.2)
      obtain ⟨_, hnd, hin, _, _, hlenF, _⟩ := g0.fed_facts move hap hocc hwall heat
      subst hgw hgh
      have harea := g0.area_eq hw hh hprod
      have hlen : ((g0.fed move).getGridBody.length : Int) = g0.area := by
        rw [← hlenF]; exact h3
      refine ⟨hnd, ?_, ?_, hlen.trans harea⟩
      · exact fun c hc => (g0.insideWalls_iff c).mp (hin c hc)
      · exact fun c hc => g0.mem_of_length_eq_area hw hh harea _ hnd hin hlen c
          ((g0.insideWalls_iff c).mpr hc)
    · rcases hsp : Grid.spawnApple { g0 with snake_ := g0.fed move } num with _ | a
      · simp [hsp] at hstep
      · simp only [hsp, Option.map_some', Option.some.injEq, Prod.mk.injEq] at hstep
        obtain ⟨rfl, _⟩ := hstep
        rw [hs] at hwin
        cases hwin
    · cases hstep
      rw [hs] at hwin
      cases hwin

/-- Witness of C13: `wonGrid`, won on the 2 by 1 grid in one tick, holds the two
cells (1, 0) and (0, 0). -/
theorem win_full_board_witness :
    wonGrid.snake_.getGridBody = [⟨1, 0⟩, ⟨0, 0⟩]
    ∧ wonGrid.snake_.getGridBody.Nodup
    ∧ (wonGrid.snake_.getGridBody.length : Int) = 2 * 1 :=
  ⟨rfl, (win_full_board 2 1 (by norm_num) wonGrid wonGrid_inPlay rfl).1,
    (win_full_board 2 1 (by norm_num) wonGrid wonGrid_inPlay rfl).2.2.2⟩

/-- C14, evaluated at the failing input. `neckGrid` is reached from `Grid(5, 2)` by two
ticks; its first body segment (1, 0) is the cell directly behind the head (2, 0).
The calls `turn(Up)`, `turn(Left)`, `move()` put the head on that segment. In the loop
of `main`: Up held in a frame before the delay has elapsed, Left held in the frame
of the tick; the tick ends with "RAN INTO MYSELF" and status `Loss`. -/
theorem reverse_into_neck :
    Reachable 5 2 neckGrid
    ∧ neckGrid.snake_.body_.head?
        = some (neckGrid.snake_.head_.sub neckGrid.snake_.direction_.unit)
    ∧ some (neckGrid.snake_.run
        [SnakeOp.turn (some Direction.Up), SnakeOp.turn (some Direction.Left),
          SnakeOp.move]).head_ = neckGrid.snake_.body_.head?
    ∧ mainLoop neckWorld [upFrame, leftFrame] =
        some { isOpen := true
               grid := { neckGrid with
                 snake_ := { direction_ := Direction.Left, head_ := ⟨1, 0⟩, tail_ := ⟨0, 0⟩,
                             body_ := [⟨2, 0⟩, ⟨1, 0⟩] }
                 gameStatus_ := GameStatus.Loss }
               cout := "RAN INTO MYSELF" } :=
  ⟨neckGrid_reachable, by decide, by decide, by decide⟩

/-- Counterexample to C15 as stated: from `Snake((2147483647, 0))` the call `move()`
adds 1 to `x` in `int`, which gives -2147483648; after `growTail()` the cells of
`getGridBody()` are (-2147483648, 0) and (2147483647, 0), which are not one grid step
apart. -/
theorem contiguity_counterexample :
    ((Snake.init ⟨2147483647, 0⟩).run [SnakeOp.move, SnakeOp.growTail]).getGridBody
      = [⟨-2147483648, 0⟩, ⟨2147483647, 0⟩]
    ∧ ¬ stepApart ⟨-2147483648, 0⟩ ⟨2147483647, 0⟩
    ∧ ¬ List.Chain' stepApart
        ((Snake.init ⟨2147483647, 0⟩).run [SnakeOp.move, SnakeOp.growTail]).getGridBody := by
  have h1 : ((Snake.init ⟨2147483647, 0⟩).run [SnakeOp.move, SnakeOp.growTail]).getGridBody
      = [⟨-2147483648, 0⟩, ⟨2147483647, 0⟩] := by decide
  have h2 : ¬ stepApart ⟨-2147483648, 0⟩ ⟨2147483647, 0⟩ := by
    simp only [stepApart]
    omega
  refine ⟨h1, h2, ?_⟩
  rw [h1, List.chain'_pair]
  exact h2

/-- C15, amended. Contiguity invariant while no coordinate overflows `int`: for every
`start` and every sequence of `turn`, `move` and `growTail` calls with `m` calls of
`move` such that `start.x - 1 - m`, `start.x + m`, `start.y - m` and `start.y + m` are
in the range of `int`, every two consecutive elements of `getGridBody()` of the
reached state differ by exactly one grid step. -/
theorem contiguity (start : Vector2i) (ops : List SnakeOp)
    (hx1 : -2147483647 + (ops.countP SnakeOp.isMove : Int) ≤ start.x)
    (hx2 : start.x + (ops.countP SnakeOp.isMove : Int) ≤ 2147483647)
    (hy1 : -2147483648 + (ops.countP SnakeOp.isMove : Int) ≤ start.y)
    (hy2 : start.y + (ops.countP SnakeOp.isMove : Int) ≤ 2147483647) :
    List.Chain' stepApart ((Snake.init start).run ops).getGridBody :=
  (Snake.run_init_contiguous start ops (by omega) ⟨by show _ ≤ start.x; omega, hx2, hy1, hy2⟩).1

/-- Witness of C15 amended: from `Snake((0, 0))` the calls `move`, `growTail`, `turn(Down)`,
`move`, `growTail` give the cells (1, 1), (1, 0), (0, 0). -/
theorem contiguity_witness :
    ((Snake.init ⟨0, 0⟩).run [SnakeOp.move, SnakeOp.growTail,
        SnakeOp.turn (some Direction.Down), SnakeOp.move, SnakeOp.growTail]).getGridBody
      = [⟨1, 1⟩, ⟨1, 0⟩, ⟨0, 0⟩]
    ∧ List.Chain' stepApart
        ((Snake.init ⟨0, 0⟩).run [SnakeOp.move, SnakeOp.growTail,
          SnakeOp.turn (some Direction.Down), SnakeOp.move, SnakeOp.growTail]).getGridBody :=
  ⟨by decide,
    contiguity ⟨0, 0⟩ [SnakeOp.move, SnakeOp.growTail,
      SnakeOp.turn (some Direction.Down), SnakeOp.move, SnakeOp.growTail]
      (by decide) (by decide) (by decide) (by decide)⟩

/-- Counterexample to C16 as stated: for the snake `Snake((2147483647, 0))`, heading
Right, the old `x` plus 1 is 2147483648, but `move()` adds in `int` and the new head
is (-2147483648, 0). -/
theorem advance_step_counterexample :
    (Snake.init ⟨2147483647, 0⟩).direction_.unit = ⟨1, 0⟩
    ∧ (Snake.init ⟨2147483647, 0⟩).head_.x + (Snake.init ⟨2147483647, 0⟩).direction_.unit.x
        = 2147483648
    ∧ (Snake.init ⟨2147483647, 0⟩).move.head_ = ⟨-2147483648, 0⟩
    ∧ (Snake.init ⟨2147483647, 0⟩).move.head_.x
        ≠ (Snake.init ⟨2147483647, 0⟩).head_.x
            + (Snake.init ⟨2147483647, 0⟩).direction_.unit.x := by
  decide

/-- C16, amended. Advance step: after `move()` the head is the old head plus the unit
vector of the current direction, the sum taken in `int` as `operator+=` does: each
coordinate is `wrap32` of the exact sum, and it is the exact sum when the head has
room for one step inside the range of `int`. `getGridBody()` is the new head followed
by the old `getGridBody()` without its last element, `tail_` is that last element,
and the direction is unchanged. -/
theorem advance_step (s : Snake) :
    s.move.head_ = s.head_.add s.direction_.unit
    ∧ s.move.head_ = ⟨wrap32 (s.head_.x + s.direction_.unit.x),
        wrap32 (s.head_.y + s.direction_.unit.y)⟩
    ∧ (s.Room 1 → s.move.head_ = ⟨s.head_.x + s.direction_.unit.x,
        s.head_.y + s.direction_.unit.y⟩)
    ∧ s.move.getGridBody = s.move.head_ :: s.getGridBody.dropLast
    ∧ s.move.tail_ = s.getGridBody.getLast (List.cons_ne_nil s.head_ s.body_)
    ∧ s.move.direction_ = s.direction_ := by
  have h : s.move.head_ = s.head_.add s.direction_.unit := by
    cases hd : s.direction_ <;> simp [Snake.move, Direction.unit, hd]
  refine ⟨h, h, ?_, rfl, rfl, rfl⟩
  rintro ⟨h1, h2, h3, h4⟩
  simp only [Nat.cast_one] at h1 h2 h3 h4
  rw [h]
  cases hd : s.direction_ <;>
    simp only [Vector2i.add, Direction.unit, Vector2i.mk.injEq] <;>
    exact ⟨wrap32_of_range _ (by omega) (by omega), wrap32_of_range _ (by omega) (by omega)⟩

/-- Witness of C16 amended: `neckSnake`, heading Right from (1, 0), moves to (2, 0). -/
theorem advance_step_witness :
    neckSnake.move.head_ = ⟨2, 0⟩
    ∧ neckSnake.move.head_ = ⟨neckSnake.head_.x + neckSnake.direction_.unit.x,
        neckSnake.head_.y + neckSnake.direction_.unit.y⟩ :=
  ⟨by decide, (advance_step neckSnake).2.2.1 ⟨by decide, by decide, by decide, by decide⟩⟩

/-- Counterexample to C17 as stated: right after `Snake((0, 0))` the body is empty and
`tail_` is (-1, 0), not the head; after `move()`, `growTail()`, `move()` the body is
[(1, 0)] and `tail_` is (0, 0), the cell just dropped, not the last body element. -/
theorem cached_tail_counterexample :
    (Snake.init ⟨0, 0⟩).run [] = Snake.init ⟨0, 0⟩
    ∧ (Snake.init ⟨0, 0⟩).body_ = []
    ∧ (Snake.init ⟨0, 0⟩).tail_ ≠ (Snake.init ⟨0, 0⟩).head_
    ∧ ((Snake.init ⟨0, 0⟩).run [SnakeOp.move, SnakeOp.growTail, SnakeOp.move]).body_
        = [⟨1, 0⟩]
    ∧ ((Snake.init ⟨0, 0⟩).run [SnakeOp.move, SnakeOp.growTail, SnakeOp.move]).tail_
        = ⟨0, 0⟩ := by
  decide

/-- C17, amended. Cached tail: in every snake state reached from `Snake(start)` by
`turn`, `move` and `growTail` calls during which no coordinate overflows `int` (with
`m` calls of `move`, `start.x - 1 - m`, `start.x + m`, `start.y - m` and `start.y + m`
are in the range of `int`), `tail_` equals `back()` (the last element of the body, or
the head when the body is empty) or is one grid step from it. For every snake it is
`start - (1, 0)` after the constructor, the last element of the previous
`getGridBody()` (the cell just dropped) after `move()`, and `back()` after
`growTail()`. -/
theorem cached_tail (start : Vector2i) (ops : List SnakeOp) (s : Snake) :
    ((-2147483647 + (ops.countP SnakeOp.isMove : Int) ≤ start.x ∧
        start.x + (ops.countP SnakeOp.isMove : Int) ≤ 2147483647 ∧
        -2147483648 + (ops.countP SnakeOp.isMove : Int) ≤ start.y ∧
        start.y + (ops.countP SnakeOp.isMove : Int) ≤ 2147483647) →
      ((Snake.init start).run ops).tail_ = ((Snake.init start).run ops).back
        ∨ stepApart ((Snake.init start).run ops).back ((Snake.init start).run ops).tail_)
    ∧ (Snake.init start).tail_ = start.sub ⟨1, 0⟩
    ∧ s.move.tail_ = s.getGridBody.getLast (List.cons_ne_nil s.head_ s.body_)
    ∧ s.growTail.tail_ = s.growTail.back :=
  ⟨fun h => (Snake.run_init_contiguous start ops (by omega)
      ⟨by show _ ≤ start.x; omega, h.2.1, h.2.2.1, h.2.2.2⟩).2,
    rfl, rfl, s.growTail_tail_eq_back⟩

/-- Witness of C17 amended: from `Snake((0, 0))` after `move`, `growTail`, `move` the tail
(0, 0) is one step from the back (1, 0). -/
theorem cached_tail_witness :
    ((Snake.init ⟨0, 0⟩).run [SnakeOp.move, SnakeOp.growTail, SnakeOp.move]).back = ⟨1, 0⟩
    ∧ ((Snake.init ⟨0, 0⟩).run [SnakeOp.move, SnakeOp.growTail, SnakeOp.move]).tail_ = ⟨0, 0⟩
    ∧ (((Snake.init ⟨0, 0⟩).run [SnakeOp.move, SnakeOp.growTail, SnakeOp.move]).tail_
          = ((Snake.init ⟨0, 0⟩).run [SnakeOp.move, SnakeOp.growTail, SnakeOp.move]).back
        ∨ stepApart
          ((Snake.init ⟨0, 0⟩).run [SnakeOp.move, SnakeOp.growTail, SnakeOp.move]).back
          ((Snake.init ⟨0, 0⟩).run [SnakeOp.move, SnakeOp.growTail, SnakeOp.move]).tail_) :=
  ⟨by decide, by decide,
    (cached_tail ⟨0, 0⟩ [SnakeOp.move, SnakeOp.growTail, SnakeOp.move] (Snake.init ⟨0, 0⟩)).1
      (by decide)⟩

/-- C18. `growTail` cannot double-grow: calling it twice in a row gives the same state
as calling it once, and over any sequence of `turn` and `growTail` calls without a
`move()` the length grows by at most one. -/
theorem growTail_idempotent (s : Snake) (ops : List SnakeOp)
    (hops : ∀ op ∈ ops, op.isMove = false) :
    s.growTail.growTail = s.growTail ∧ (s.run ops).length ≤ s.length + 1 :=
  ⟨s.growTail_idem, Snake.run_noMove_length_le ops hops s⟩

/-- Witness of C18: after a `move()` of `neckSnake`, the calls `growTail`, `turn(Up)`,
`growTail` take the length from 2 to 3, not further. -/
theorem growTail_idempotent_witness :
    neckSnake.move.growTail.growTail = neckSnake.move.growTail
    ∧ (neckSnake.move.run
        [SnakeOp.growTail, SnakeOp.turn (some Direction.Up), SnakeOp.growTail]).length
      ≤ neckSnake.move.length + 1 :=
  growTail_idempotent neckSnake.move
    [SnakeOp.growTail, SnakeOp.turn (some Direction.Up), SnakeOp.growTail] (by decide)

/-- Counterexample to C19 as stated: `Grid(-1, -2)` has `width * height = 2`; its
constructor returns a state with status `InProgress` whose only snake cell (0, 0) is
not inside `[0, -1) x [0, -2)`. -/
theorem occupancy_counterexample :
    (2 : Int) ≤ negativeGrid.width_ * negativeGrid.height_
    ∧ Reachable (-1) (-2) negativeGrid
    ∧ negativeGrid.gameStatus_ = GameStatus.InProgress
    ∧ negativeGrid.snake_.getGridBody = [⟨0, 0⟩]
    ∧ negativeGrid.insideWalls ⟨0, 0⟩ = false :=
  ⟨by decide, Reachable.init 0 negativeGrid (by decide), rfl, rfl, by decide⟩

/-- C19, amended. Occupancy invariant: for `width >= 1` and `height >= 1`, in every
`InProgress` state reached from `Grid(width, height)` by `playMove` ticks, the cells of
`getGridBody()` are pairwise distinct, all lie inside `[0, width) x [0, height)`, and
`length() < width * height`. -/
theorem occupancy_invariant (width height : Int) (hw : 1 ≤ width) (hh : 1 ≤ height)
    (g : Grid) (hreach : Reachable width height g)
    (hs : g.gameStatus_ = GameStatus.InProgress) :
    g.snake_.getGridBody.Nodup
    ∧ (∀ c ∈ g.snake_.getGridBody, 0 ≤ c.x ∧ c.x < width ∧ 0 ≤ c.y ∧ c.y < height)
    ∧ g.snake_.length < width * height := by
  obtain ⟨hgw, hgh⟩ := hreach.dims
  have hocc := hreach.occupancy hw hh hs
  subst hgw hgh
  have hlt := g.area_lt
  have hle := g.area_le hw hh
  have hl := g.snake_.length_eq (by have := hocc.2; omega)
  refine ⟨(hreach.applePlaced hs).1, fun c hc => (g.insideWalls_iff c).mp (hocc.1 c hc), ?_⟩
  rw [hl]
  exact lt_of_lt_of_le hocc.2 hle

/-- Witness of C19 amended: `coilGrid`, of length 4 on the 3 by 3 grid. -/
theorem occupancy_invariant_witness :
    coilGrid.snake_.getGridBody.Nodup ∧ coilGrid.snake_.length < 3 * 3 :=
  ⟨(occupancy_invariant 3 3 (by decide) (by decide) coilGrid coilGrid_reachable rfl).1,
   (occupancy_invariant 3 3 (by decide) (by decide) coilGrid coilGrid_reachable rfl).2.2⟩

/-- C20. Degenerate 1 by 1 board: when `Grid(1, 1)` calls `spawnApple` the snake
already holds the only cell and `length() == width * height`; `reserve(0)` does not
throw, the vector of available cells is empty, so no index `num` is in range and
neither `spawnApple` nor the constructor has a value. -/
theorem degenerate_board (num : Nat) :
    (Grid.unspawned 1 1).snake_.getGridBody = [⟨0, 0⟩]
    ∧ (Grid.unspawned 1 1).snake_.length = 1 * 1
    ∧ ((Grid.unspawned 1 1).snakeSetBody.length : Int) ≤ 1 * 1
    ∧ (Grid.unspawned 1 1).available = []
    ∧ (Grid.unspawned 1 1).available[num]? = none
    ∧ (Grid.unspawned 1 1).spawnApple num = none
    ∧ Grid.init 1 1 num = none := by
  have hav : (Grid.unspawned 1 1).available = [] := by decide
  have hsp : (Grid.unspawned 1 1).spawnApple num = none := by
    unfold Grid.spawnApple
    rw [if_pos (by decide), hav]
    rfl
  refine ⟨rfl, by decide, by decide, hav, ?_, hsp, ?_⟩
  · rw [hav]; rfl
  · rw [Grid.init_eq, hsp]; rfl

end SnakeGame
